import Mathlib

/-!
# Verification of the coresvc authenticated symmetric encryption module

Shallow embedding of `packages/core/src/lib/crypto.ts` and
`packages/core/src/lib/crypto.errors.ts`.

Bytes are modelled as `Nat` values `< 256`, buffers as `List Nat`, and the
base64 text encoding used on the external interface is implemented
concretely below, matching Node's forgiving `Buffer.from(s, "base64")`
decoder (which ignores characters outside the alphabet and never throws).
-/

namespace Crypto

/-- A buffer is a list of byte values. -/
def allBytes (l : List Nat) : Prop := ∀ b ∈ l, b < 256

instance (l : List Nat) : Decidable (allBytes l) := by
  unfold allBytes; infer_instance

/-! ## Base64 (model of Node `Buffer.from(·, "base64")` / `toString("base64")`) -/

/-- Sixbit value of a base64 alphabet character; `none` for characters outside
the alphabet (Node's forgiving decoder skips those, and also accepts the
URL-safe alphabet `-` and `_`). -/
def charToSixbit (c : Char) : Option Nat :=
  let n := c.toNat
  if 65 ≤ n ∧ n ≤ 90 then some (n - 65)        -- A-Z
  else if 97 ≤ n ∧ n ≤ 122 then some (n - 71)  -- a-z
  else if 48 ≤ n ∧ n ≤ 57 then some (n + 4)    -- 0-9
  else if n = 43 ∨ n = 45 then some 62         -- + or -
  else if n = 47 ∨ n = 95 then some 63         -- / or _
  else none

/-- Standard base64 alphabet character for a sixbit value. -/
def sixbitToChar (n : Nat) : Char :=
  Char.ofNat
    (if n < 26 then 65 + n
     else if n < 52 then 71 + n
     else if n < 62 then n - 4
     else if n = 62 then 43
     else 47)

/-- Reassemble bytes from a stream of sixbit values (groups of four sixbits
give three bytes; a trailing group of three or two gives two or one byte; a
lone trailing sixbit carries no complete byte and is dropped). -/
def sixbitsToBytes : List Nat → List Nat
  | s1 :: s2 :: s3 :: s4 :: rest =>
      (s1 * 4 + s2 / 16) :: ((s2 % 16) * 16 + s3 / 4) :: ((s3 % 4) * 64 + s4) ::
        sixbitsToBytes rest
  | [s1, s2, s3] => [s1 * 4 + s2 / 16, (s2 % 16) * 16 + s3 / 4]
  | [s1, s2] => [s1 * 4 + s2 / 16]
  | [_] => []
  | [] => []

/-- Base64-encode a byte list as characters, with `=` padding. -/
def bytesToB64Chars : List Nat → List Char
  | b1 :: b2 :: b3 :: rest =>
      sixbitToChar (b1 / 4) :: sixbitToChar ((b1 % 4) * 16 + b2 / 16) ::
      sixbitToChar ((b2 % 16) * 4 + b3 / 64) :: sixbitToChar (b3 % 64) ::
        bytesToB64Chars rest
  | [b1, b2] => [sixbitToChar (b1 / 4), sixbitToChar ((b1 % 4) * 16 + b2 / 16),
                 sixbitToChar ((b2 % 16) * 4), '=']
  | [b1] => [sixbitToChar (b1 / 4), sixbitToChar ((b1 % 4) * 16), '=', '=']
  | [] => []

/-- Model of `buf.toString("base64")`. -/
def base64Encode (bs : List Nat) : String := String.mk (bytesToB64Chars bs)

/-- Model of `Buffer.from(s, "base64")`: forgiving — characters outside the
alphabet (including stray padding) are skipped, and decoding never throws. -/
def base64Decode (s : String) : List Nat :=
  sixbitsToBytes (s.data.filterMap charToSixbit)

theorem charToSixbit_sixbitToChar : ∀ n < 64, charToSixbit (sixbitToChar n) = some n := by
  decide

theorem charToSixbit_eq : charToSixbit '=' = none := by decide

/-- Decoding inverts encoding on byte lists. -/
theorem base64_decode_encode (bs : List Nat) (h : allBytes bs) :
    base64Decode (base64Encode bs) = bs := by
  suffices hsuff : sixbitsToBytes ((bytesToB64Chars bs).filterMap charToSixbit) = bs by
    simpa [base64Decode, base64Encode] using hsuff
  induction bs using bytesToB64Chars.induct with
  | case1 b1 b2 b3 rest ih =>
    have h1 : b1 < 256 := h b1 (by simp)
    have h2 : b2 < 256 := h b2 (by simp)
    have h3 : b3 < 256 := h b3 (by simp)
    have e1 := charToSixbit_sixbitToChar (b1 / 4) (by omega)
    have e2 := charToSixbit_sixbitToChar ((b1 % 4) * 16 + b2 / 16) (by omega)
    have e3 := charToSixbit_sixbitToChar ((b2 % 16) * 4 + b3 / 64) (by omega)
    have e4 := charToSixbit_sixbitToChar (b3 % 64) (by omega)
    have ih' := ih (fun b hb => h b (by simp [hb]))
    simp only [bytesToB64Chars, List.filterMap_cons, e1, e2, e3, e4, sixbitsToBytes,
      List.cons.injEq]
    refine ⟨by omega, by omega, by omega, ih'⟩
  | case2 b1 b2 =>
    have h1 : b1 < 256 := h b1 (by simp)
    have h2 : b2 < 256 := h b2 (by simp)
    have e1 := charToSixbit_sixbitToChar (b1 / 4) (by omega)
    have e2 := charToSixbit_sixbitToChar ((b1 % 4) * 16 + b2 / 16) (by omega)
    have e3 := charToSixbit_sixbitToChar ((b2 % 16) * 4) (by omega)
    simp only [bytesToB64Chars, List.filterMap_cons, e1, e2, e3, charToSixbit_eq,
      List.filterMap_nil, sixbitsToBytes, List.cons.injEq]
    refine ⟨by omega, by omega, trivial⟩
  | case3 b1 =>
    have h1 : b1 < 256 := h b1 (by simp)
    have e1 := charToSixbit_sixbitToChar (b1 / 4) (by omega)
    have e2 := charToSixbit_sixbitToChar ((b1 % 4) * 16) (by omega)
    simp only [bytesToB64Chars, List.filterMap_cons, e1, e2, charToSixbit_eq,
      List.filterMap_nil, sixbitsToBytes, List.cons.injEq]
    refine ⟨by omega, trivial⟩
  | case4 => rfl

/-! ## UTF-8

JavaScript strings are sequences of Unicode code points (well-formed
strings have no lone surrogates; Lean cannot even represent those).  We
model a plaintext as its list of code points and implement the UTF-8
encoder/decoder used by `Buffer.byteLength(·, "utf8")`,
`cipher.update(·, "utf8", ·)` and `decipher.update(·, ·, "utf8")`. -/

/-- UTF-8 encoding of a single code point (1–4 bytes). -/
def utf8EncodeChar (c : Nat) : List Nat :=
  if c < 0x80 then [c]
  else if c < 0x800 then [0xC0 + c / 64, 0x80 + c % 64]
  else if c < 0x10000 then [0xE0 + c / 4096, 0x80 + (c / 64) % 64, 0x80 + c % 64]
  else [0xF0 + c / 0x40000, 0x80 + (c / 4096) % 64, 0x80 + (c / 64) % 64, 0x80 + c % 64]

/-- UTF-8 encoding of a code-point list. -/
def utf8Encode (cps : List Nat) : List Nat := cps.flatMap utf8EncodeChar

/-- Model of `Buffer.byteLength(plaintext, "utf8")`. -/
def utf8ByteLength (cps : List Nat) : Nat := (utf8Encode cps).length

/-- Continuation byte test (`10xxxxxx`). -/
def isCont (b : Nat) : Bool := decide (0x80 ≤ b ∧ b < 0xC0)

/-- One step of lenient UTF-8 decoding: consume one encoded code point from
`b1 :: t1` and return it with the remaining bytes.  A malformed lead or
continuation byte yields the replacement character `U+FFFD` (as Node's
`"utf8"` text decoding does) and decoding resumes at the next byte. -/
def utf8Step (b1 : Nat) (t1 : List Nat) : Nat × List Nat :=
  if b1 < 0x80 then (b1, t1)
  else if 0xC0 ≤ b1 ∧ b1 < 0xE0 then
    match t1 with
    | b2 :: t2 => if isCont b2 then ((b1 - 0xC0) * 64 + (b2 - 0x80), t2) else (0xFFFD, t1)
    | [] => (0xFFFD, [])
  else if 0xE0 ≤ b1 ∧ b1 < 0xF0 then
    match t1 with
    | b2 :: b3 :: t3 =>
      if isCont b2 && isCont b3 then
        ((b1 - 0xE0) * 4096 + (b2 - 0x80) * 64 + (b3 - 0x80), t3)
      else (0xFFFD, t1)
    | _ => (0xFFFD, t1)
  else if 0xF0 ≤ b1 ∧ b1 < 0xF8 then
    match t1 with
    | b2 :: b3 :: b4 :: t4 =>
      if isCont b2 && isCont b3 && isCont b4 then
        ((b1 - 0xF0) * 0x40000 + (b2 - 0x80) * 4096 + (b3 - 0x80) * 64 + (b4 - 0x80), t4)
      else (0xFFFD, t1)
    | _ => (0xFFFD, t1)
  else (0xFFFD, t1)

theorem utf8Step_snd_le (b1 : Nat) (t1 : List Nat) : (utf8Step b1 t1).2.length ≤ t1.length := by
  unfold utf8Step
  repeat' split
  all_goals simp_all
  all_goals omega

/-- Fueled lenient UTF-8 decoding; each step consumes at least one byte, so
fuel equal to the input length suffices (`utf8DecodeF_fuel`). -/
def utf8DecodeF : Nat → List Nat → List Nat
  | 0, _ => []
  | _ + 1, [] => []
  | fuel + 1, b1 :: t1 => (utf8Step b1 t1).1 :: utf8DecodeF fuel (utf8Step b1 t1).2

/-- Lenient UTF-8 decoder (model of decoding a byte buffer as `"utf8"` text). -/
def utf8Decode (l : List Nat) : List Nat := utf8DecodeF l.length l

theorem utf8DecodeF_fuel (f1 : Nat) : ∀ (f2 : Nat) (l : List Nat),
    l.length ≤ f1 → l.length ≤ f2 → utf8DecodeF f1 l = utf8DecodeF f2 l := by
  induction f1 with
  | zero =>
    intro f2 l h1 h2
    have : l = [] := List.eq_nil_of_length_eq_zero (by omega)
    subst this
    cases f2 <;> rfl
  | succ g1 ih =>
    intro f2 l h1 h2
    match l with
    | [] => cases f2 <;> rfl
    | b1 :: t1 =>
      match f2 with
      | 0 => simp at h2
      | g2 + 1 =>
        simp only [utf8DecodeF, List.cons.injEq, true_and]
        have hle := utf8Step_snd_le b1 t1
        simp only [List.length_cons] at h1 h2
        exact ih g2 _ (by omega) (by omega)

theorem utf8Decode_nil : utf8Decode [] = [] := rfl

theorem utf8Decode_cons (b1 : Nat) (t1 : List Nat) :
    utf8Decode (b1 :: t1) = (utf8Step b1 t1).1 :: utf8Decode (utf8Step b1 t1).2 := by
  have hle := utf8Step_snd_le b1 t1
  simp only [utf8Decode, List.length_cons, utf8DecodeF, List.cons.injEq, true_and]
  exact utf8DecodeF_fuel t1.length _ _ hle (le_refl _)

/-- Valid code points (Unicode scalar range upper bound). -/
def validCps (cps : List Nat) : Prop := ∀ c ∈ cps, c < 0x110000

instance (cps : List Nat) : Decidable (validCps cps) := by
  unfold validCps; infer_instance

theorem utf8EncodeChar_bytes (c : Nat) (h : c < 0x110000) : allBytes (utf8EncodeChar c) := by
  intro b hb
  unfold utf8EncodeChar at hb
  split at hb
  · simp at hb; omega
  · split at hb
    · simp at hb; rcases hb with h' | h' <;> omega
    · split at hb
      · simp at hb; rcases hb with h' | h' | h' <;> omega
      · simp at hb; rcases hb with h' | h' | h' | h' <;> omega

theorem utf8Encode_bytes (cps : List Nat) (h : validCps cps) : allBytes (utf8Encode cps) := by
  intro b hb
  simp only [utf8Encode, List.mem_flatMap] at hb
  obtain ⟨c, hc, hbc⟩ := hb
  exact utf8EncodeChar_bytes c (h c hc) b hbc

theorem utf8Step_ascii (b1 : Nat) (t : List Nat) (h : b1 < 0x80) :
    utf8Step b1 t = (b1, t) := by
  unfold utf8Step
  rw [if_pos h]

theorem utf8Step_two (c : Nat) (t : List Nat) (h1 : 0x80 ≤ c) (h2 : c < 0x800) :
    utf8Step (0xC0 + c / 64) ((0x80 + c % 64) :: t) = (c, t) := by
  unfold utf8Step
  repeat' split
  all_goals simp_all [isCont, Prod.ext_iff]
  all_goals omega

theorem utf8Step_three (c : Nat) (t : List Nat) (h1 : 0x800 ≤ c) (h2 : c < 0x10000) :
    utf8Step (0xE0 + c / 4096) ((0x80 + c / 64 % 64) :: (0x80 + c % 64) :: t) = (c, t) := by
  unfold utf8Step
  repeat' split
  all_goals simp_all [isCont, Prod.ext_iff]
  all_goals omega

theorem utf8Step_four (c : Nat) (t : List Nat) (h1 : 0x10000 ≤ c) (h2 : c < 0x110000) :
    utf8Step (0xF0 + c / 0x40000)
      ((0x80 + c / 4096 % 64) :: (0x80 + c / 64 % 64) :: (0x80 + c % 64) :: t) = (c, t) := by
  unfold utf8Step
  repeat' split
  all_goals simp_all [isCont, Prod.ext_iff]
  all_goals omega

/-- Decoding inverts encoding on valid code-point lists. -/
theorem utf8_decode_encode (cps : List Nat) (h : validCps cps) :
    utf8Decode (utf8Encode cps) = cps := by
  induction cps with
  | nil => simpa [utf8Encode] using utf8Decode_nil
  | cons c t ih =>
    have hc : c < 0x110000 := h c (by simp)
    have ih' := ih (fun x hx => h x (List.mem_cons_of_mem c hx))
    simp only [utf8Encode, List.flatMap_cons] at ih' ⊢
    by_cases h1 : c < 0x80
    · have hE : utf8EncodeChar c = [c] := by
        unfold utf8EncodeChar; rw [if_pos h1]
      rw [hE, List.cons_append, List.nil_append, utf8Decode_cons, utf8Step_ascii c _ h1]
      dsimp only
      rw [ih']
    · by_cases h2 : c < 0x800
      · have hE : utf8EncodeChar c = [0xC0 + c / 64, 0x80 + c % 64] := by
          unfold utf8EncodeChar; rw [if_neg h1, if_pos h2]
        rw [hE, List.cons_append, List.cons_append, List.nil_append, utf8Decode_cons,
          utf8Step_two c _ (by omega) h2]
        dsimp only
        rw [ih']
      · by_cases h3 : c < 0x10000
        · have hE : utf8EncodeChar c = [0xE0 + c / 4096, 0x80 + c / 64 % 64, 0x80 + c % 64] := by
            unfold utf8EncodeChar; rw [if_neg h1, if_neg h2, if_pos h3]
          rw [hE, List.cons_append, List.cons_append, List.cons_append, List.nil_append,
            utf8Decode_cons, utf8Step_three c _ (by omega) h3]
          dsimp only
          rw [ih']
        · have hE : utf8EncodeChar c =
              [0xF0 + c / 0x40000, 0x80 + c / 4096 % 64, 0x80 + c / 64 % 64, 0x80 + c % 64] := by
            unfold utf8EncodeChar; rw [if_neg h1, if_neg h2, if_neg h3]
          rw [hE, List.cons_append, List.cons_append, List.cons_append, List.cons_append,
            List.nil_append, utf8Decode_cons, utf8Step_four c _ (by omega) hc]
          dsimp only
          rw [ih']


/-! ## Model of the `node:crypto` AES-256-GCM primitive

Modelled from the spec: `createCipheriv`/`createDecipheriv` with
`"aes-256-gcm"` are external `node:crypto` primitives, not repository code.
The spec describes them as an AEAD whose ciphertext body is length-preserving
("GCM-class modes are length-preserving for the ciphertext body") and whose
16-byte authentication tag "binds ciphertext + nonce + key", verified
atomically on decryption.  We model this with a keystream XOR (CTR-style,
so encryption and decryption are the same XOR and the ciphertext body is
length-preserving) and a position-sensitive polynomial authentication tag
over key ++ iv ++ ciphertext (GHASH-style: any single-byte change in key,
nonce or ciphertext changes the tag, proved below). -/

def polyAcc (l : List Nat) : Nat := l.foldr (fun b acc => b + 257 * acc) 0

theorem polyAcc_cons (b : Nat) (t : List Nat) : polyAcc (b :: t) = b + 257 * polyAcc t := rfl

theorem polyAcc_append (xs ys : List Nat) :
    polyAcc (xs ++ ys) = polyAcc xs + 257 ^ xs.length * polyAcc ys := by
  induction xs with
  | nil => simp [polyAcc]
  | cons x t ih =>
    simp only [List.cons_append, polyAcc_cons, ih, List.length_cons, pow_succ]
    ring

/-- Two byte lists that agree except at one position have different
polynomial hashes modulo 2^128. -/
theorem polyAcc_mod_ne (pre suf : List Nat) (b1 b2 : Nat)
    (hb1 : b1 < 256) (hb2 : b2 < 256) (hne : b1 ≠ b2) :
    polyAcc (pre ++ b1 :: suf) % 2 ^ 128 ≠ polyAcc (pre ++ b2 :: suf) % 2 ^ 128 := by
  intro heq
  set L := pre.length with hL
  have h1 : polyAcc (pre ++ b1 :: suf) = polyAcc pre + 257 ^ L * (b1 + 257 * polyAcc suf) := by
    rw [polyAcc_append, polyAcc_cons]
  have h2 : polyAcc (pre ++ b2 :: suf) = polyAcc pre + 257 ^ L * (b2 + 257 * polyAcc suf) := by
    rw [polyAcc_append, polyAcc_cons]
  have hz : ((polyAcc (pre ++ b1 :: suf) : Int)) % 2 ^ 128 =
      ((polyAcc (pre ++ b2 :: suf) : Int)) % 2 ^ 128 := by
    exact_mod_cast congrArg (fun n : Nat => (n : Int)) heq
  have hdvd : (2 ^ 128 : Int) ∣
      (polyAcc (pre ++ b2 :: suf) : Int) - (polyAcc (pre ++ b1 :: suf) : Int) :=
    Int.ModEq.dvd (hz : Int.ModEq (2 ^ 128) _ _)
  have hdiff : (polyAcc (pre ++ b2 :: suf) : Int) - (polyAcc (pre ++ b1 :: suf) : Int) =
      257 ^ L * ((b2 : Int) - (b1 : Int)) := by
    rw [h1, h2]
    push_cast
    ring
  rw [hdiff] at hdvd
  have hcop : IsCoprime ((2 : Int) ^ 128) ((257 : Int) ^ L) := by
    apply IsCoprime.pow
    have : Nat.Coprime 2 257 := by decide
    exact_mod_cast Nat.isCoprime_iff_coprime.mpr this
  have hdvd2 : (2 ^ 128 : Int) ∣ ((b2 : Int) - (b1 : Int)) :=
    hcop.dvd_of_dvd_mul_left hdvd
  rcases lt_trichotomy ((b2 : Int) - (b1 : Int)) 0 with hlt | heq0 | hgt
  · have hdvd3 : (2 ^ 128 : Int) ∣ ((b1 : Int) - (b2 : Int)) := by
      rw [show (b1 : Int) - (b2 : Int) = -((b2 : Int) - (b1 : Int)) by ring]
      exact hdvd2.neg_right
    have := Int.le_of_dvd (by omega) hdvd3
    omega
  · omega
  · have := Int.le_of_dvd hgt hdvd2
    omega

def natToBytesLE : Nat → Nat → List Nat
  | 0, _ => []
  | n + 1, v => (v % 256) :: natToBytesLE n (v / 256)

theorem natToBytesLE_length (n v : Nat) : (natToBytesLE n v).length = n := by
  induction n generalizing v with
  | zero => rfl
  | succ m ih => simp [natToBytesLE, ih]

theorem natToBytesLE_bytes (n v : Nat) : ∀ b ∈ natToBytesLE n v, b < 256 := by
  induction n generalizing v with
  | zero => simp [natToBytesLE]
  | succ m ih =>
    intro b hb
    simp only [natToBytesLE, List.mem_cons] at hb
    rcases hb with h | h
    · omega
    · exact ih _ b h

theorem natToBytesLE_inj (n v1 v2 : Nat) (h1 : v1 < 256 ^ n) (h2 : v2 < 256 ^ n)
    (h : natToBytesLE n v1 = natToBytesLE n v2) : v1 = v2 := by
  induction n generalizing v1 v2 with
  | zero => simp [pow_zero] at h1 h2; omega
  | succ m ih =>
    simp only [natToBytesLE, List.cons.injEq] at h
    have hd1 : v1 / 256 < 256 ^ m := by
      rw [Nat.div_lt_iff_lt_mul (by norm_num)]
      calc v1 < 256 ^ (m + 1) := h1
      _ = 256 ^ m * 256 := by rw [pow_succ]
    have hd2 : v2 / 256 < 256 ^ m := by
      rw [Nat.div_lt_iff_lt_mul (by norm_num)]
      calc v2 < 256 ^ (m + 1) := h2
      _ = 256 ^ m * 256 := by rw [pow_succ]
    have := ih _ _ hd1 hd2 h.2
    omega

def keystreamByte (key iv : List Nat) (i : Nat) : Nat :=
  polyAcc (key ++ iv ++ [i]) % 256

def xorKS (key iv : List Nat) : Nat → List Nat → List Nat
  | _, [] => []
  | i, b :: t => (b ^^^ keystreamByte key iv i) :: xorKS key iv (i + 1) t

def xorKeystream (key iv data : List Nat) : List Nat := xorKS key iv 0 data

theorem xorKS_involution (key iv : List Nat) (i : Nat) (d : List Nat) :
    xorKS key iv i (xorKS key iv i d) = d := by
  induction d generalizing i with
  | nil => rfl
  | cons b t ih =>
    simp only [xorKS, Nat.xor_assoc, Nat.xor_self, Nat.xor_zero, List.cons.injEq]
    exact ⟨trivial, ih (i + 1)⟩

theorem xorKS_length (key iv : List Nat) (i : Nat) (d : List Nat) :
    (xorKS key iv i d).length = d.length := by
  induction d generalizing i with
  | nil => rfl
  | cons b t ih => simp [xorKS, ih]

theorem xorKS_bytes (key iv : List Nat) (i : Nat) (d : List Nat) (h : ∀ b ∈ d, b < 256) :
    ∀ b ∈ xorKS key iv i d, b < 256 := by
  induction d generalizing i with
  | nil => simp [xorKS]
  | cons b t ih =>
    intro x hx
    simp only [xorKS, List.mem_cons] at hx
    rcases hx with h' | h'
    · subst h'
      have hb : b < 256 := h b (by simp)
      have hk : keystreamByte key iv i < 256 := Nat.mod_lt _ (by norm_num)
      calc b ^^^ keystreamByte key iv i < 2 ^ 8 :=
        Nat.xor_lt_two_pow (by omega) (by omega)
      _ = 256 := by norm_num
    · exact ih (i + 1) (fun y hy => h y (by simp [hy])) x h'

def computeTag (key iv ct : List Nat) : List Nat :=
  natToBytesLE 16 (polyAcc (key ++ iv ++ ct) % 2 ^ 128)

theorem computeTag_length (key iv ct : List Nat) : (computeTag key iv ct).length = 16 :=
  natToBytesLE_length _ _

theorem computeTag_bytes (key iv ct : List Nat) : ∀ b ∈ computeTag key iv ct, b < 256 :=
  natToBytesLE_bytes _ _

/-- Tags of messages differing in a single byte position differ. -/
theorem computeTag_ne (pre suf : List Nat) (b1 b2 : Nat)
    (hb1 : b1 < 256) (hb2 : b2 < 256) (hne : b1 ≠ b2) :
    natToBytesLE 16 (polyAcc (pre ++ b1 :: suf) % 2 ^ 128) ≠
      natToBytesLE 16 (polyAcc (pre ++ b2 :: suf) % 2 ^ 128) := by
  intro h
  apply polyAcc_mod_ne pre suf b1 b2 hb1 hb2 hne
  apply natToBytesLE_inj 16 _ _ ?_ ?_ h
  · have : polyAcc (pre ++ b1 :: suf) % 2 ^ 128 < 2 ^ 128 := Nat.mod_lt _ (by positivity)
    calc polyAcc (pre ++ b1 :: suf) % 2 ^ 128 < 2 ^ 128 := this
    _ ≤ 256 ^ 16 := by norm_num
  · have : polyAcc (pre ++ b2 :: suf) % 2 ^ 128 < 2 ^ 128 := Nat.mod_lt _ (by positivity)
    calc polyAcc (pre ++ b2 :: suf) % 2 ^ 128 < 2 ^ 128 := this
    _ ≤ 256 ^ 16 := by norm_num


/-! ## Error taxonomy (`crypto.errors.ts`)

The source models errors as a class hierarchy with a string `type`
discriminant; we use one inductive with a `ctype` function producing the
same tags.  `cause` payloads are carried as message strings. -/

inductive CryptoError where
  | plaintextTooLarge (maxSize actualSize : Nat)
  | invalidKeyLength (expectedLength actualLength : Nat)
  | missingEncryptionKey
  | invalidIvLength (expectedLength actualLength : Nat)
  | invalidAuthTagLength (expectedLength actualLength : Nat)
  | invalidBase64Format (field : String)
  | encryptionFailed (cause : String)
  | decryptionFailed (cause : String)
  | jsonSerializationFailed (cause : String)
  | jsonParseFailed (cause : String)
deriving DecidableEq, Repr

/-- The `type` discriminant of `CryptoError` (`CryptoErrorType` in the source). -/
def CryptoError.ctype : CryptoError → String
  | .plaintextTooLarge _ _ => "PLAINTEXT_TOO_LARGE"
  | .invalidKeyLength _ _ => "INVALID_KEY_LENGTH"
  | .missingEncryptionKey => "MISSING_ENCRYPTION_KEY"
  | .invalidIvLength _ _ => "INVALID_IV_LENGTH"
  | .invalidAuthTagLength _ _ => "INVALID_AUTH_TAG_LENGTH"
  | .invalidBase64Format _ => "INVALID_BASE64_FORMAT"
  | .encryptionFailed _ => "ENCRYPTION_FAILED"
  | .decryptionFailed _ => "DECRYPTION_FAILED"
  | .jsonSerializationFailed _ => "JSON_SERIALIZATION_FAILED"
  | .jsonParseFailed _ => "JSON_PARSE_FAILED"

/-! ## The crypto module (`crypto.ts`) -/

/-- Encrypted data envelope: three base64 text fields. -/
structure EncryptedData where
  ciphertext : String
  iv : String
  tag : String
deriving DecidableEq, Repr

def KEY_LENGTH : Nat := 32
def IV_LENGTH : Nat := 12
def TAG_LENGTH : Nat := 16
def MAX_PLAINTEXT_SIZE : Nat := 64 * 1024

/-- Message with which `decipher.final()` throws on authentication failure. -/
def AUTH_FAIL_MSG : String := "Unsupported state or unable to authenticate data"

/-- `getEncryptionKey`: reads `process.env.ENCRYPTION_KEY` (modelled as the
`env` argument; `none` = unset).  The source tests `if (!key)`, so an env
variable set to the empty string also counts as missing (JS falsiness). -/
def getEncryptionKey (env : Option String) : Except CryptoError String :=
  match env with
  | none => .error .missingEncryptionKey
  | some key => if key = "" then .error .missingEncryptionKey else .ok key

/-- Key-resolution step shared verbatim by `encrypt` and `decrypt`:
`if (key) { encryptionKey = key; } else { ...getEncryptionKey()... }`.
Note the JS truthiness test: an explicit empty-string key is falsy and
falls back to the environment. -/
def resolveKeyArg (key env : Option String) : Except CryptoError String :=
  match key with
  | some k => if k = "" then getEncryptionKey env else .ok k
  | none => getEncryptionKey env

/-- `validateEncryptedData`: field-format validation run before decryption.
`Buffer.from(·, "base64")` never throws (forgiving decoder), so the
`catch` branches returning `InvalidBase64FormatError` are unreachable, and
the ciphertext check (decode only, no length constraint) is a no-op. -/
def validateEncryptedData (data : EncryptedData) : Except CryptoError Unit :=
  let ivBuffer := base64Decode data.iv
  if ivBuffer.length ≠ IV_LENGTH then
    .error (.invalidIvLength IV_LENGTH ivBuffer.length)
  else
    let tagBuffer := base64Decode data.tag
    if tagBuffer.length ≠ TAG_LENGTH then
      .error (.invalidAuthTagLength TAG_LENGTH tagBuffer.length)
    else
      .ok ()

deriving instance DecidableEq for Except

/-- Result of one `encrypt` call together with the final contents of the
decoded key buffer (`none` when the call returned before the key was
decoded; the source zeroes the buffer with `keyBuffer.fill(0)` on the
invalid-length path and in the `finally` block). -/
structure EncryptOutcome where
  result : Except CryptoError EncryptedData
  keyBufferFinal : Option (List Nat)
deriving DecidableEq, Repr

/-- Embedding of `encrypt`.  `ivRand` stands for the `randomBytes(IV_LENGTH)`
output of this call, `env` for `process.env.ENCRYPTION_KEY`, and
`cipherFault` (modelled from the spec: "On any unexpected cryptographic
failure, wrap as an encryption-failed error preserving the underlying
cause") for a hypothetical throw of the underlying cipher inside the
`try` block; `none` is the normal non-throwing run. -/
def encryptTraced (ivRand : List Nat) (plaintext : List Nat) (key env : Option String)
    (cipherFault : Option String) : EncryptOutcome :=
  let plaintextSize := utf8ByteLength plaintext
  if plaintextSize > MAX_PLAINTEXT_SIZE then
    { result := .error (.plaintextTooLarge MAX_PLAINTEXT_SIZE plaintextSize)
      keyBufferFinal := none }
  else
    match resolveKeyArg key env with
    | .error e => { result := .error e, keyBufferFinal := none }
    | .ok encryptionKey =>
      let keyBuffer := base64Decode encryptionKey
      if keyBuffer.length ≠ KEY_LENGTH then
        { result := .error (.invalidKeyLength KEY_LENGTH keyBuffer.length)
          keyBufferFinal := some (List.replicate keyBuffer.length 0) }
      else
        match cipherFault with
        | some msg =>
          { result := .error (.encryptionFailed msg)
            keyBufferFinal := some (List.replicate keyBuffer.length 0) }
        | none =>
          let ct := xorKeystream keyBuffer ivRand (utf8Encode plaintext)
          let tag := computeTag keyBuffer ivRand ct
          { result := .ok { ciphertext := base64Encode ct
                            iv := base64Encode ivRand
                            tag := base64Encode tag }
            keyBufferFinal := some (List.replicate keyBuffer.length 0) }

/-- `encrypt` (the normal, non-throwing cipher run). -/
def encrypt (ivRand : List Nat) (plaintext : List Nat) (key env : Option String) :
    Except CryptoError EncryptedData :=
  (encryptTraced ivRand plaintext key env none).result

/-- Result of one `decrypt` call together with the final contents of the
decoded key buffer. -/
structure DecryptOutcome where
  result : Except CryptoError (List Nat)
  keyBufferFinal : Option (List Nat)
deriving DecidableEq, Repr

/-- Embedding of `decrypt`.  The `try` block throws exactly when the
authentication tag does not match (the `decipher.setAuthTag`/`final`
verification), or when `cipherFault` injects a hypothetical unexpected
throw; every throw is caught and wrapped as `DecryptionFailedError`, and
the `finally` block zeroes the key buffer. -/
def decryptTraced (encryptedData : EncryptedData) (key env : Option String)
    (cipherFault : Option String) : DecryptOutcome :=
  match validateEncryptedData encryptedData with
  | .error e => { result := .error e, keyBufferFinal := none }
  | .ok _ =>
    match resolveKeyArg key env with
    | .error e => { result := .error e, keyBufferFinal := none }
    | .ok encryptionKey =>
      let keyBuffer := base64Decode encryptionKey
      if keyBuffer.length ≠ KEY_LENGTH then
        { result := .error (.invalidKeyLength KEY_LENGTH keyBuffer.length)
          keyBufferFinal := some (List.replicate keyBuffer.length 0) }
      else
        match cipherFault with
        | some msg =>
          { result := .error (.decryptionFailed msg)
            keyBufferFinal := some (List.replicate keyBuffer.length 0) }
        | none =>
          let ivBuffer := base64Decode encryptedData.iv
          let tagBuffer := base64Decode encryptedData.tag
          let ctBuffer := base64Decode encryptedData.ciphertext
          if computeTag keyBuffer ivBuffer ctBuffer = tagBuffer then
            { result := .ok (utf8Decode (xorKeystream keyBuffer ivBuffer ctBuffer))
              keyBufferFinal := some (List.replicate keyBuffer.length 0) }
          else
            { result := .error (.decryptionFailed AUTH_FAIL_MSG)
              keyBufferFinal := some (List.replicate keyBuffer.length 0) }

/-- `decrypt` (the normal cipher run); returns the recovered plaintext as a
code-point list. -/
def decrypt (encryptedData : EncryptedData) (key env : Option String) :
    Except CryptoError (List Nat) :=
  (decryptTraced encryptedData key env none).result



/-! ## JSON adapter (`encryptJson` / `decryptJson`)

`JSON.stringify` / `JSON.parse` are JS runtime primitives.  We model the
`unknown` value domain as JSON trees plus the non-tree values with special
`JSON.stringify` behaviour: `bigint` (stringify throws a `TypeError`;
cyclic structures are not representable in a tree type) and
`undef`/`func`/`symbol` (stringify RETURNS `undefined` for these at the
top level, serializes them as `null` inside arrays, and drops them from
objects).  JSON numbers are modelled as integers. -/

inductive JsValue where
  | null
  | bool (b : Bool)
  | num (n : Int)
  | str (s : String)
  | arr (elems : List JsValue)
  | obj (fields : List (String × JsValue))
  | bigint (n : Int)
  | undef
  | func
  | symbol
deriving Repr, BEq

/-- JSON string literal quoting (escapes quotes, backslashes and the
common control characters). -/
def jsonQuoteChar (c : Char) : List Char :=
  if c = Char.ofNat 34 then [Char.ofNat 92, Char.ofNat 34]
  else if c = Char.ofNat 92 then [Char.ofNat 92, Char.ofNat 92]
  else if c = Char.ofNat 10 then [Char.ofNat 92, 'n']
  else if c = Char.ofNat 9 then [Char.ofNat 92, 't']
  else if c = Char.ofNat 13 then [Char.ofNat 92, 'r']
  else [c]

def jsonQuote (s : String) : String :=
  String.mk (Char.ofNat 34 :: s.data.flatMap jsonQuoteChar ++ [Char.ofNat 34])

mutual
/-- Model of `JSON.stringify`, with all three of its outcomes: `.error c`
when it throws (BigInt), `.ok (some s)` when it returns the string `s`,
and `.ok none` when it returns `undefined` (top-level `undefined`,
function, or symbol). -/
def jsonStringify : JsValue → Except String (Option String)
  | .null => .ok (some "null")
  | .bool b => .ok (some (if b then "true" else "false"))
  | .num n => .ok (some (toString n))
  | .str s => .ok (some (jsonQuote s))
  | .bigint _ => .error "Do not know how to serialize a BigInt"
  | .undef => .ok none
  | .func => .ok none
  | .symbol => .ok none
  | .arr es =>
    match stringifyElems es with
    | .error e => .error e
    | .ok parts => .ok (some ("[" ++ String.intercalate "," parts ++ "]"))
  | .obj fs =>
    match stringifyFields fs with
    | .error e => .error e
    | .ok parts => .ok (some ("\x7b" ++ String.intercalate "," parts ++ "\x7d"))

/-- Array elements: a value serializing to `undefined` appears as `null`. -/
def stringifyElems : List JsValue → Except String (List String)
  | [] => .ok []
  | v :: t =>
    match jsonStringify v, stringifyElems t with
    | .ok (some sv), .ok rest => .ok (sv :: rest)
    | .ok none, .ok rest => .ok ("null" :: rest)
    | .error e, _ => .error e
    | _, .error e => .error e

/-- Object members: a field whose value serializes to `undefined` is
dropped. -/
def stringifyFields : List (String × JsValue) → Except String (List String)
  | [] => .ok []
  | (k, v) :: t =>
    match jsonStringify v, stringifyFields t with
    | .ok (some sv), .ok rest => .ok ((jsonQuote k ++ ":" ++ sv) :: rest)
    | .ok none, .ok rest => .ok rest
    | .error e, _ => .error e
    | _, .error e => .error e
end

/-- Skip JSON whitespace. -/
def skipWs : List Char → List Char
  | c :: t =>
    if c = ' ' ∨ c = Char.ofNat 9 ∨ c = Char.ofNat 10 ∨ c = Char.ofNat 13 then skipWs t
    else c :: t
  | [] => []

/-- Parse the body of a JSON string literal (after the opening quote). -/
def parseStringBody : List Char → List Char → Except String (String × List Char)
  | [], _ => .error "Unterminated string in JSON"
  | c :: t, acc =>
    if c = Char.ofNat 34 then .ok (String.mk acc.reverse, t)
    else if c = Char.ofNat 92 then
      match t with
      | [] => .error "Unterminated string in JSON"
      | e :: t2 =>
        if e = Char.ofNat 34 then parseStringBody t2 (Char.ofNat 34 :: acc)
        else if e = Char.ofNat 92 then parseStringBody t2 (Char.ofNat 92 :: acc)
        else if e = '/' then parseStringBody t2 ('/' :: acc)
        else if e = 'n' then parseStringBody t2 (Char.ofNat 10 :: acc)
        else if e = 't' then parseStringBody t2 (Char.ofNat 9 :: acc)
        else if e = 'r' then parseStringBody t2 (Char.ofNat 13 :: acc)
        else .error "Bad escaped character in JSON"
    else parseStringBody t (c :: acc)

/-- Parse a run of decimal digits. -/
def parseDigits : List Char → Nat → Nat × List Char
  | c :: t, acc =>
    if c.isDigit then parseDigits t (acc * 10 + (c.toNat - 48)) else (acc, c :: t)
  | [], acc => (acc, [])

mutual
/-- Model of `JSON.parse` (integer-valued numbers only), by recursive
descent; `fuel` strictly decreases on every call and is chosen large
enough at the top level that well-formed input never exhausts it. -/
def parseValue : Nat → List Char → Except String (JsValue × List Char)
  | 0, _ => .error "JSON input too deeply nested"
  | fuel + 1, cs =>
    match skipWs cs with
    | [] => .error "Unexpected end of JSON input"
    | c :: t =>
      if c = 'n' then
        match t with
        | 'u' :: 'l' :: 'l' :: r => .ok (.null, r)
        | _ => .error "Unexpected token n in JSON"
      else if c = 't' then
        match t with
        | 'r' :: 'u' :: 'e' :: r => .ok (.bool true, r)
        | _ => .error "Unexpected token t in JSON"
      else if c = 'f' then
        match t with
        | 'a' :: 'l' :: 's' :: 'e' :: r => .ok (.bool false, r)
        | _ => .error "Unexpected token f in JSON"
      else if c = Char.ofNat 34 then
        match parseStringBody t [] with
        | .ok (s, r) => .ok (.str s, r)
        | .error e => .error e
      else if c = '[' then
        match skipWs t with
        | ']' :: r => .ok (.arr [], r)
        | t2 => parseElems fuel t2 []
      else if c = Char.ofNat 123 then
        match skipWs t with
        | t2 =>
          if t2.head? = some (Char.ofNat 125) then .ok (.obj [], t2.tail)
          else parseMembers fuel t2 []
      else if c = '-' then
        match t with
        | d :: _ =>
          if d.isDigit then
            match parseDigits t 0 with
            | (n, r) => .ok (.num (-(n : Int)), r)
          else .error "Unexpected token - in JSON"
        | [] => .error "Unexpected end of JSON input"
      else if c.isDigit then
        match parseDigits (c :: t) 0 with
        | (n, r) => .ok (.num (n : Int), r)
      else .error "Unexpected token in JSON"

/-- Parse the remaining elements of a JSON array. -/
def parseElems : Nat → List Char → List JsValue → Except String (JsValue × List Char)
  | 0, _, _ => .error "JSON input too deeply nested"
  | fuel + 1, cs, acc =>
    match parseValue fuel cs with
    | .error e => .error e
    | .ok (v, r) =>
      match skipWs r with
      | ',' :: r2 => parseElems fuel r2 (v :: acc)
      | ']' :: r2 => .ok (.arr (v :: acc).reverse, r2)
      | _ => .error "Expected comma or closing bracket in JSON array"

/-- Parse the remaining members of a JSON object. -/
def parseMembers : Nat → List Char → List (String × JsValue) →
    Except String (JsValue × List Char)
  | 0, _, _ => .error "JSON input too deeply nested"
  | fuel + 1, cs, acc =>
    match skipWs cs with
    | c :: t =>
      if c = Char.ofNat 34 then
        match parseStringBody t [] with
        | .error e => .error e
        | .ok (k, r) =>
          match skipWs r with
          | ':' :: r2 =>
            match parseValue fuel r2 with
            | .error e => .error e
            | .ok (v, r3) =>
              match skipWs r3 with
              | ',' :: r4 => parseMembers fuel r4 ((k, v) :: acc)
              | r4 =>
                if r4.head? = some (Char.ofNat 125) then
                  .ok (.obj ((k, v) :: acc).reverse, r4.tail)
                else .error "Expected comma or closing brace in JSON object"
          | _ => .error "Expected colon in JSON object"
      else .error "Expected string key in JSON object"
    | [] => .error "Unexpected end of JSON input"
end

/-- Model of `JSON.parse(text)`. -/
def jsonParse (text : String) : Except String JsValue :=
  match parseValue (4 * text.length + 4) text.data with
  | .error e => .error e
  | .ok (v, rest) =>
    match skipWs rest with
    | [] => .ok v
    | _ => .error "Unexpected non-whitespace character after JSON data"

/-- Code points of a JS string. -/
def strToCps (s : String) : List Nat := s.data.map Char.toNat

/-- JS string from code points. -/
def cpsToStr (cps : List Nat) : String := String.mk (cps.map Char.ofNat)

/-- Outcome of a call as the caller observes it: either a returned
`Result` value, or an exception that escaped the callee uncaught. -/
inductive JsOutcome (α : Type) where
  | result (r : Except CryptoError α)
  | thrown (msg : String)
deriving DecidableEq, Repr

/-- Message of the `TypeError` raised by `Buffer.byteLength(undefined,
"utf8")` when `encrypt` is entered with an undefined plaintext. -/
def TYPE_ERROR_MSG : String :=
  "The \"string\" argument must be of type string or an instance of Buffer or ArrayBuffer. Received undefined"

/-- Embedding of `encryptJson`.  When `JSON.stringify` throws, the `catch`
wraps the cause; when it returns a string, the call delegates to `encrypt`
of that text.  When it returns `undefined` (for `undefined`, a function or
a symbol), the `catch` is NOT entered and `encrypt(undefined)` is called:
`Buffer.byteLength(undefined, "utf8")` sits outside every `try` block and
its `TypeError` escapes to the caller uncaught — no `Result` is
produced. -/
def encryptJson (ivRand : List Nat) (data : JsValue) (key env : Option String) :
    JsOutcome EncryptedData :=
  match jsonStringify data with
  | .error cause => .result (.error (.jsonSerializationFailed cause))
  | .ok none => .thrown TYPE_ERROR_MSG
  | .ok (some jsonString) => .result (encrypt ivRand (strToCps jsonString) key env)

/-- Embedding of `decryptJson`. -/
def decryptJson (encryptedData : EncryptedData) (key env : Option String) :
    Except CryptoError JsValue :=
  match decrypt encryptedData key env with
  | .error e => .error e
  | .ok plaintext =>
    match jsonParse (cpsToStr plaintext) with
    | .ok parsed => .ok parsed
    | .error cause => .error (.jsonParseFailed cause)

/-- Embedding of `generateEncryptionKey`; `randomRaw` stands for the
`randomBytes(KEY_LENGTH)` output. -/
def generateEncryptionKey (randomRaw : List Nat) : String := base64Encode randomRaw



/-! ## General lemmas about the embedded operations -/

theorem validateEncryptedData_ok_iff (d : EncryptedData) :
    validateEncryptedData d = .ok () ↔
      (base64Decode d.iv).length = IV_LENGTH ∧ (base64Decode d.tag).length = TAG_LENGTH := by
  unfold validateEncryptedData
  dsimp only
  constructor
  · intro h
    split at h
    · exact absurd h (by simp)
    · split at h
      · exact absurd h (by simp)
      · constructor
        · omega
        · omega
  · intro ⟨h1, h2⟩
    rw [if_neg (by omega), if_neg (by omega)]

/-- Success path of `encrypt`. -/
theorem encrypt_ok (ivRand pt : List Nat) (key env : Option String) (ek : String)
    (hsize : utf8ByteLength pt ≤ MAX_PLAINTEXT_SIZE)
    (hkey : resolveKeyArg key env = .ok ek)
    (hlen : (base64Decode ek).length = KEY_LENGTH) :
    encrypt ivRand pt key env = .ok
      { ciphertext := base64Encode (xorKeystream (base64Decode ek) ivRand (utf8Encode pt))
        iv := base64Encode ivRand
        tag := base64Encode (computeTag (base64Decode ek) ivRand
          (xorKeystream (base64Decode ek) ivRand (utf8Encode pt))) } := by
  unfold encrypt encryptTraced
  rw [if_neg (by omega), hkey]
  dsimp only
  rw [if_neg (by omega)]

/-- The run of `decrypt` after validation and key checks pass. -/
theorem decrypt_run (ed : EncryptedData) (key env : Option String) (ek : String)
    (hval : validateEncryptedData ed = .ok ())
    (hkey : resolveKeyArg key env = .ok ek)
    (hlen : (base64Decode ek).length = KEY_LENGTH) :
    decrypt ed key env =
      if computeTag (base64Decode ek) (base64Decode ed.iv) (base64Decode ed.ciphertext) =
          base64Decode ed.tag then
        .ok (utf8Decode
          (xorKeystream (base64Decode ek) (base64Decode ed.iv) (base64Decode ed.ciphertext)))
      else .error (.decryptionFailed AUTH_FAIL_MSG) := by
  unfold decrypt decryptTraced
  rw [hval, hkey]
  dsimp only
  rw [if_neg (by omega)]
  split
  · rfl
  · rfl

/-- `utf8ByteLength` of an ASCII repeat. -/
theorem utf8ByteLength_replicate (n c : Nat) (h : c < 0x80) :
    utf8ByteLength (List.replicate n c) = n := by
  induction n with
  | zero => rfl
  | succ m ih =>
    have hE : utf8EncodeChar c = [c] := by unfold utf8EncodeChar; rw [if_pos h]
    simp only [utf8ByteLength, utf8Encode, List.replicate_succ, List.flatMap_cons, hE,
      List.length_append] at ih ⊢
    simp only [List.length_cons, List.length_nil]
    omega

/-- Sample 12-byte IV (stands for one `randomBytes(12)` draw). -/
def iv0 : List Nat := [0, 1, 2, 3, 4, 5, 6, 7, 8, 9, 10, 11]

/-- The all-zero 32-byte key, base64-encoded. -/
def zeroKey : String := "AAAAAAAAAAAAAAAAAAAAAAAAAAAAAAAAAAAAAAAAAAA="



/-! ## Claim theorems -/

/-- C3: `encrypt` accepts a plaintext of exactly 65536 UTF-8 bytes, and fails
on one of 65537 bytes with `PlaintextTooLarge{maxSize := 65536, actualSize
:= 65537}`; the size check precedes key resolution, key decoding and nonce
use, so an oversized plaintext yields `PlaintextTooLarge` for every key
argument and environment (including a missing or wrong-length key) and
every nonce draw. -/
theorem c3_plaintext_size_boundary :
    (∀ (ivRand pt : List Nat) (key env : Option String) (ek : String),
        utf8ByteLength pt = 65536 → resolveKeyArg key env = .ok ek →
        (base64Decode ek).length = 32 →
        ∃ e, encrypt ivRand pt key env = .ok e) ∧
    (∀ (ivRand pt : List Nat) (key env : Option String),
        utf8ByteLength pt = 65537 →
        encrypt ivRand pt key env = .error (.plaintextTooLarge 65536 65537)) := by
  constructor
  · intro ivRand pt key env ek hsize hkey hlen
    refine ⟨_, encrypt_ok ivRand pt key env ek ?_ hkey ?_⟩
    · rw [hsize]; unfold MAX_PLAINTEXT_SIZE; omega
    · rw [hlen]; rfl
  · intro ivRand pt key env hsize
    unfold encrypt encryptTraced
    dsimp only
    rw [hsize, if_pos (by unfold MAX_PLAINTEXT_SIZE; omega)]
    rfl

/-- C3 witness: a 65536-byte plaintext (65536 ASCII `x`s) encrypts under the
all-zero key, and a 65537-byte one is rejected with the exact error payload
even with no key available at all. -/
theorem c3_plaintext_size_boundary_witness :
    (∃ e, encrypt iv0 (List.replicate 65536 120) (some zeroKey) none = .ok e) ∧
    encrypt iv0 (List.replicate 65537 120) none none =
      .error (.plaintextTooLarge 65536 65537) :=
  ⟨c3_plaintext_size_boundary.1 iv0 (List.replicate 65536 120) (some zeroKey) none zeroKey
      (utf8ByteLength_replicate 65536 120 (by norm_num)) rfl (by decide),
   c3_plaintext_size_boundary.2 iv0 (List.replicate 65537 120) none none
      (utf8ByteLength_replicate 65537 120 (by norm_num))⟩

/-- C5: `decrypt` validates the envelope before key resolution or any
cryptographic work: an `iv` decoding to n ≠ 12 bytes yields
`InvalidIvLength{expected := 12, actual := n}` for every key argument and
environment (including a missing key), and the tag length (expected 16) is
checked only after the iv check passes, yielding `InvalidAuthTagLength`. -/
theorem c5_validation_before_key_resolution :
    (∀ (ed : EncryptedData) (key env : Option String),
        (base64Decode ed.iv).length ≠ 12 →
        decrypt ed key env = .error (.invalidIvLength 12 (base64Decode ed.iv).length)) ∧
    (∀ (ed : EncryptedData) (key env : Option String),
        (base64Decode ed.iv).length = 12 → (base64Decode ed.tag).length ≠ 16 →
        decrypt ed key env = .error (.invalidAuthTagLength 16 (base64Decode ed.tag).length)) := by
  constructor
  · intro ed key env h
    unfold decrypt decryptTraced validateEncryptedData IV_LENGTH
    dsimp only
    rw [if_pos (by exact h)]
  · intro ed key env h1 h2
    unfold decrypt decryptTraced validateEncryptedData IV_LENGTH TAG_LENGTH
    dsimp only
    rw [if_neg (by omega), if_pos (by exact h2)]

/-- C5 witness: an 8-byte iv is rejected as `InvalidIvLength{12, 8}` even
with no key available; with a valid iv, an 8-byte tag is rejected as
`InvalidAuthTagLength{16, 8}`. -/
theorem c5_validation_before_key_resolution_witness :
    decrypt { ciphertext := "", iv := base64Encode (List.replicate 8 0),
              tag := base64Encode (List.replicate 16 0) } none none =
        .error (.invalidIvLength 12 8) ∧
    decrypt { ciphertext := "", iv := base64Encode (List.replicate 12 0),
              tag := base64Encode (List.replicate 8 0) } none none =
        .error (.invalidAuthTagLength 16 8) := by
  constructor
  · have h := c5_validation_before_key_resolution.1
      { ciphertext := "", iv := base64Encode (List.replicate 8 0),
        tag := base64Encode (List.replicate 16 0) } none none (by decide)
    rw [h]
    decide
  · have h := c5_validation_before_key_resolution.2
      { ciphertext := "", iv := base64Encode (List.replicate 12 0),
        tag := base64Encode (List.replicate 8 0) } none none (by decide) (by decide)
    rw [h]
    decide



theorem resolveKeyArg_some (k : String) (env : Option String) (hk : k ≠ "") :
    resolveKeyArg (some k) env = .ok k := by
  unfold resolveKeyArg
  dsimp only
  rw [if_neg hk]

theorem validateEncryptedData_error_shape (ed : EncryptedData) (e : CryptoError)
    (h : validateEncryptedData ed = .error e) :
    e = .invalidIvLength 12 (base64Decode ed.iv).length ∨
    e = .invalidAuthTagLength 16 (base64Decode ed.tag).length := by
  unfold validateEncryptedData at h
  dsimp only at h
  split at h
  · left
    cases h
    rfl
  · split at h
    · right
      cases h
      rfl
    · cases h

theorem resolveKeyArg_error_shape (key env : Option String) (e : CryptoError)
    (h : resolveKeyArg key env = .error e) : e = .missingEncryptionKey := by
  unfold resolveKeyArg getEncryptionKey at h
  match key with
  | none =>
    dsimp only at h
    match env with
    | none => cases h; rfl
    | some v =>
      dsimp only at h
      split at h
      · cases h; rfl
      · cases h
  | some k =>
    dsimp only at h
    split at h
    · match env with
      | none => cases h; rfl
      | some v =>
        dsimp only at h
        split at h
        · cases h; rfl
        · cases h
    · cases h

/-- C4 counterexample: the claim quantifies over every key string whose
base64 decoding is not 32 bytes long, but the empty string (decoding to 0
bytes) is falsy in JS, so `encrypt` falls back to the environment key
instead of failing with `InvalidKeyLength`: with a valid environment key it
succeeds outright, and with no environment key it fails with
`MissingEncryptionKey` instead. -/
theorem c4_counterexample :
    (base64Decode "").length = 0 ∧
    encrypt iv0 [] (some "") (some zeroKey) =
      .ok { ciphertext := "", iv := "AAECAwQFBgcICQoL", tag := "Qjqvs0IemXVpV8c6ok6ang==" } ∧
    encrypt iv0 [] (some "") none ≠
      .error (.invalidKeyLength 32 0) := by
  refine ⟨rfl, by decide, by decide⟩

/-- C4 (amended): for every NON-EMPTY key string that base64-decodes to
n ≠ 32 bytes, both `encrypt` (on a plaintext within the size bound) and
`decrypt` (on an envelope passing format validation) fail with
`InvalidKeyLength{expectedLength := 32, actualLength := n}`, for every
environment; a key decoding to exactly 32 bytes never trips this check in
either operation.  (The empty-string key is excluded: it is falsy in JS
and falls back to the environment key, see the counterexample.) -/
theorem c4_invalid_key_length :
    (∀ (k : String), k ≠ "" → (base64Decode k).length ≠ 32 →
      (∀ (ivRand pt : List Nat) (env : Option String),
        utf8ByteLength pt ≤ 65536 →
        encrypt ivRand pt (some k) env =
          .error (.invalidKeyLength 32 (base64Decode k).length)) ∧
      (∀ (ed : EncryptedData) (env : Option String),
        validateEncryptedData ed = .ok () →
        decrypt ed (some k) env = .error (.invalidKeyLength 32 (base64Decode k).length))) ∧
    (∀ (k : String), (base64Decode k).length = 32 →
      (∀ (ivRand pt : List Nat) (env : Option String) (x y : Nat),
        encrypt ivRand pt (some k) env ≠ .error (.invalidKeyLength x y)) ∧
      (∀ (ed : EncryptedData) (env : Option String) (x y : Nat),
        decrypt ed (some k) env ≠ .error (.invalidKeyLength x y))) := by
  constructor
  · intro k hk hn
    constructor
    · intro ivRand pt env hsz
      unfold encrypt encryptTraced
      dsimp only
      rw [if_neg (by unfold MAX_PLAINTEXT_SIZE; omega), resolveKeyArg_some k env hk]
      dsimp only
      rw [if_pos (by unfold KEY_LENGTH; exact hn)]
      rfl
    · intro ed env hval
      unfold decrypt decryptTraced
      rw [hval, resolveKeyArg_some k env hk]
      dsimp only
      rw [if_pos (by unfold KEY_LENGTH; exact hn)]
      rfl
  · intro k hlen
    have hk : k ≠ "" := by
      intro h
      subst h
      revert hlen
      decide
    constructor
    · intro ivRand pt env x y heq
      unfold encrypt encryptTraced at heq
      dsimp only at heq
      by_cases hsz : utf8ByteLength pt > MAX_PLAINTEXT_SIZE
      · rw [if_pos hsz] at heq
        simp at heq
      · rw [if_neg hsz, resolveKeyArg_some k env hk] at heq
        dsimp only at heq
        rw [if_neg (by unfold KEY_LENGTH; omega)] at heq
        simp at heq
    · intro ed env x y heq
      unfold decrypt decryptTraced at heq
      split at heq
      · rename_i e hverr
        dsimp only at heq
        rcases validateEncryptedData_error_shape ed e hverr with h | h <;> (subst h; simp at heq)
      · rw [resolveKeyArg_some k env hk] at heq
        dsimp only at heq
        rw [if_neg (by unfold KEY_LENGTH; omega)] at heq
        split at heq <;> simp at heq

/-- C4 witness: the repo test key `"invalid-key"` decodes to 8 bytes and is
rejected by both operations with the exact payload; the all-zero 32-byte
key never produces `InvalidKeyLength`. -/
theorem c4_invalid_key_length_witness :
    encrypt iv0 (strToCps "Test data") (some "invalid-key") none =
        .error (.invalidKeyLength 32 8) ∧
    decrypt { ciphertext := "", iv := "AAECAwQFBgcICQoL", tag := "Qjqvs0IemXVpV8c6ok6ang==" }
        (some "invalid-key") none = .error (.invalidKeyLength 32 8) ∧
    encrypt iv0 [] (some zeroKey) none ≠ .error (.invalidKeyLength 32 32) := by
  refine ⟨?_, ?_, ?_⟩
  · have h := ((c4_invalid_key_length.1 "invalid-key" (by decide) (by decide)).1
      iv0 (strToCps "Test data") none (by decide))
    rw [h]
    decide
  · have h := ((c4_invalid_key_length.1 "invalid-key" (by decide) (by decide)).2
      { ciphertext := "", iv := "AAECAwQFBgcICQoL", tag := "Qjqvs0IemXVpV8c6ok6ang==" }
      none (by decide))
    rw [h]
    decide
  · exact (c4_invalid_key_length.2 zeroKey (by decide)).1 iv0 [] none 32 32



/-- C8 counterexample: the claim says an explicit key is used as-is with the
configuration value never consulted, "including the empty string" — but
`if (key)` is a JS truthiness test, so an explicit empty-string key falls
back to `ENCRYPTION_KEY`: with a valid environment key the call succeeds
using that key (were `""` used as-is it would fail with
`InvalidKeyLength{32, 0}`), and with no environment key it fails with
`MissingEncryptionKey`. -/
theorem c8_counterexample :
    encrypt iv0 [] (some "") (some zeroKey) =
        .ok { ciphertext := "", iv := "AAECAwQFBgcICQoL", tag := "Qjqvs0IemXVpV8c6ok6ang==" } ∧
    encrypt iv0 [] (some "") (some zeroKey) ≠ .error (.invalidKeyLength 32 0) ∧
    encrypt iv0 [] (some "") none = .error .missingEncryptionKey := by
  refine ⟨by decide, by decide, by decide⟩

/-- C8 (amended): an explicit NON-EMPTY key argument is used as-is (subject
only to length validation) and the environment is never consulted — the
result of `encrypt`/`decrypt` is the same for every environment; an
explicit empty-string key is falsy and behaves exactly like an absent key;
when the key falls back and the environment value is absent (or the empty
string, equally falsy), the operation fails with `MissingEncryptionKey`,
whose `type` discriminant `"MISSING_ENCRYPTION_KEY"` identifies it uniquely
among all error kinds. -/
theorem c8_key_resolution :
    (∀ (k : String), k ≠ "" →
      (∀ (ivRand pt : List Nat) (env1 env2 : Option String),
        encrypt ivRand pt (some k) env1 = encrypt ivRand pt (some k) env2) ∧
      (∀ (ed : EncryptedData) (env1 env2 : Option String),
        decrypt ed (some k) env1 = decrypt ed (some k) env2)) ∧
    (∀ (ivRand pt : List Nat) (env : Option String),
        encrypt ivRand pt (some "") env = encrypt ivRand pt none env) ∧
    (∀ (ed : EncryptedData) (env : Option String),
        decrypt ed (some "") env = decrypt ed none env) ∧
    (∀ (ivRand pt : List Nat) (env : Option String),
        utf8ByteLength pt ≤ 65536 → (env = none ∨ env = some "") →
        encrypt ivRand pt none env = .error .missingEncryptionKey) ∧
    (∀ (ed : EncryptedData) (env : Option String),
        validateEncryptedData ed = .ok () → (env = none ∨ env = some "") →
        decrypt ed none env = .error .missingEncryptionKey) ∧
    (∀ e : CryptoError, e.ctype = "MISSING_ENCRYPTION_KEY" ↔ e = .missingEncryptionKey) := by
  refine ⟨?_, ?_, ?_, ?_, ?_, ?_⟩
  · intro k hk
    constructor
    · intro ivRand pt env1 env2
      unfold encrypt encryptTraced
      rw [resolveKeyArg_some k env1 hk, resolveKeyArg_some k env2 hk]
    · intro ed env1 env2
      unfold decrypt decryptTraced
      rw [resolveKeyArg_some k env1 hk, resolveKeyArg_some k env2 hk]
  · intro ivRand pt env
    rfl
  · intro ed env
    rfl
  · intro ivRand pt env hsz henv
    unfold encrypt encryptTraced resolveKeyArg getEncryptionKey
    dsimp only
    rw [if_neg (by unfold MAX_PLAINTEXT_SIZE; omega)]
    rcases henv with h | h <;> subst h <;> rfl
  · intro ed env hval henv
    unfold decrypt decryptTraced resolveKeyArg getEncryptionKey
    rw [hval]
    rcases henv with h | h <;> subst h <;> rfl
  · intro e
    cases e <;> simp [CryptoError.ctype]

/-- C8 witness: with the non-empty all-zero key the environment is ignored
(same result for two different environments); with no key and no
environment the missing-key error is raised, and its discriminant is the
unique `"MISSING_ENCRYPTION_KEY"` tag. -/
theorem c8_key_resolution_witness :
    encrypt iv0 [] (some zeroKey) none = encrypt iv0 [] (some zeroKey) (some "other") ∧
    encrypt iv0 [] none none = .error .missingEncryptionKey ∧
    CryptoError.missingEncryptionKey.ctype = "MISSING_ENCRYPTION_KEY" :=
  ⟨(c8_key_resolution.1 zeroKey (by decide)).1 iv0 [] none (some "other"),
   c8_key_resolution.2.2.2.1 iv0 [] none (by decide) (Or.inl rfl),
   (c8_key_resolution.2.2.2.2.2 CryptoError.missingEncryptionKey).mpr rfl⟩



/-- The envelope `encrypt` produces for plaintext `"Hi"` under the all-zero
key with the sample nonce `iv0`. -/
def sampleHiEnvelope : EncryptedData :=
  { ciphertext := "Cio=", iv := "AAECAwQFBgcICQoL", tag := "dlQY36Ri4E05IeJfRXE1Xg==" }

/-- The envelope `encrypt` produces for plaintext `"nope"` (not valid JSON)
under the all-zero key with the sample nonce `iv0`. -/
def sampleNopeEnvelope : EncryptedData :=
  { ciphertext := "LCw0IA==", iv := "AAECAwQFBgcICQoL", tag := "7r7p4fI/tXdldlMAC+7BeQ==" }

/-- C6 counterexample: `Buffer.from(·, "base64")` never throws — it decodes
leniently, skipping characters outside the alphabet — so validation cannot
report `InvalidBase64Format`.  For the claim's own instance (an envelope
whose ciphertext is not valid base64, with well-formed iv and tag and a
valid key), `decrypt` reaches the cipher and fails with `DecryptionFailed`,
not with `InvalidBase64Format{field := "ciphertext"}`. -/
theorem c6_counterexample :
    decrypt { ciphertext := "not valid base64!!!@#$%",
              iv := base64Encode (List.replicate 12 0),
              tag := base64Encode (List.replicate 16 0) } (some zeroKey) none =
        .error (.decryptionFailed AUTH_FAIL_MSG) ∧
    (CryptoError.decryptionFailed AUTH_FAIL_MSG).ctype = "DECRYPTION_FAILED" := by
  refine ⟨by decide, rfl⟩

/-- C6 (amended): base64 decoding is forgiving and total, so the
`InvalidBase64Format` branches are unreachable: validation always either
succeeds or reports one of the two length errors (with the actual decoded
length), and any error produced by `decrypt` carries a discriminant other
than `"INVALID_BASE64_FORMAT"`; a non-base64 ciphertext inside an otherwise
well-formed envelope decodes leniently and surfaces as `DecryptionFailed`
(see the counterexample). -/
theorem c6_base64_leniency :
    (∀ ed : EncryptedData,
      validateEncryptedData ed = .ok () ∨
      validateEncryptedData ed =
        .error (.invalidIvLength 12 (base64Decode ed.iv).length) ∨
      validateEncryptedData ed =
        .error (.invalidAuthTagLength 16 (base64Decode ed.tag).length)) ∧
    (∀ (ed : EncryptedData) (key env fault : Option String) (e : CryptoError),
      (decryptTraced ed key env fault).result = .error e →
      (e.ctype == "INVALID_BASE64_FORMAT") = false) := by
  constructor
  · intro ed
    unfold validateEncryptedData
    dsimp only
    split
    · right; left; rfl
    · split
      · right; right; rfl
      · left; rfl
  · intro ed key env fault e h
    unfold decryptTraced at h
    cases hval : validateEncryptedData ed with
    | error verr =>
      rw [hval] at h
      dsimp only at h
      cases h
      rcases validateEncryptedData_error_shape ed e hval with hsh | hsh <;> subst hsh <;> rfl
    | ok u =>
      rw [hval] at h
      cases hk : resolveKeyArg key env with
      | error kerr =>
        rw [hk] at h
        dsimp only at h
        cases h
        rw [resolveKeyArg_error_shape _ _ _ hk]
        rfl
      | ok ek =>
        rw [hk] at h
        dsimp only at h
        split at h
        · cases h
          rfl
        · split at h
          · cases h
            rfl
          · split at h
            · cases h
            · cases h
              rfl

/-- C6 witness: the counterexample envelope indeed produces an error whose
discriminant is not `"INVALID_BASE64_FORMAT"`. -/
theorem c6_base64_leniency_witness :
    ((CryptoError.decryptionFailed AUTH_FAIL_MSG).ctype == "INVALID_BASE64_FORMAT") = false :=
  c6_base64_leniency.2
    { ciphertext := "not valid base64!!!@#$%",
      iv := base64Encode (List.replicate 12 0),
      tag := base64Encode (List.replicate 16 0) } (some zeroKey) none none
    (.decryptionFailed AUTH_FAIL_MSG) (by decide)

/-- C7: in both operations the decoded key buffer is zeroed before the call
returns on every exit path that materializes it: whenever a key buffer was
created, the final buffer is all zeros, and whenever the key was resolved
(and earlier checks passed), the buffer was created with the decoded key's
length — this covers the success path, the invalid-key-length failure path,
and the path where the underlying cipher throws (the `fault` argument). -/
theorem c7_key_buffer_zeroed :
    (∀ (ivRand pt : List Nat) (key env fault : Option String),
      (∀ buf, (encryptTraced ivRand pt key env fault).keyBufferFinal = some buf →
        buf = List.replicate buf.length 0) ∧
      (∀ ek, resolveKeyArg key env = .ok ek → utf8ByteLength pt ≤ 65536 →
        (encryptTraced ivRand pt key env fault).keyBufferFinal =
          some (List.replicate (base64Decode ek).length 0))) ∧
    (∀ (ed : EncryptedData) (key env fault : Option String),
      (∀ buf, (decryptTraced ed key env fault).keyBufferFinal = some buf →
        buf = List.replicate buf.length 0) ∧
      (∀ ek, resolveKeyArg key env = .ok ek → validateEncryptedData ed = .ok () →
        (decryptTraced ed key env fault).keyBufferFinal =
          some (List.replicate (base64Decode ek).length 0))) := by
  constructor
  · intro ivRand pt key env fault
    constructor
    · intro buf hbuf
      unfold encryptTraced at hbuf
      dsimp only at hbuf
      split at hbuf
      · cases hbuf
      · split at hbuf
        · cases hbuf
        · split at hbuf
          · cases hbuf
            simp
          · split at hbuf
            · cases hbuf
              simp
            · cases hbuf
              simp
    · intro ek hek hsz
      unfold encryptTraced
      dsimp only
      rw [if_neg (by unfold MAX_PLAINTEXT_SIZE; omega), hek]
      dsimp only
      split
      · rfl
      · split <;> rfl
  · intro ed key env fault
    constructor
    · intro buf hbuf
      unfold decryptTraced at hbuf
      split at hbuf
      · cases hbuf
      · split at hbuf
        · cases hbuf
        · dsimp only at hbuf
          split at hbuf
          · cases hbuf
            simp
          · split at hbuf
            · cases hbuf
              simp
            · split at hbuf
              · cases hbuf
                simp
              · cases hbuf
                simp
    · intro ek hek hval
      unfold decryptTraced
      rw [hval, hek]
      dsimp only
      split
      · rfl
      · split
        · rfl
        · split <;> rfl

/-- C7 witness: concrete calls on the all-zero key leave a 32-byte zero
buffer on the success path, the invalid-key-length path, and the
injected-throw path of both operations. -/
theorem c7_key_buffer_zeroed_witness :
    (encryptTraced iv0 (strToCps "Hi") (some zeroKey) none none).keyBufferFinal =
        some (List.replicate 32 0) ∧
    (encryptTraced iv0 [] (some zeroKey) none (some "boom")).keyBufferFinal =
        some (List.replicate 32 0) ∧
    (encryptTraced iv0 [] (some "invalid-key") none none).keyBufferFinal =
        some (List.replicate 8 0) ∧
    (decryptTraced sampleHiEnvelope (some zeroKey) none none).keyBufferFinal =
        some (List.replicate 32 0) := by
  refine ⟨?_, ?_, ?_, ?_⟩
  · have h := ((c7_key_buffer_zeroed.1 iv0 (strToCps "Hi") (some zeroKey) none none).2
      zeroKey (by decide) (by decide))
    rw [h]
    decide
  · have h := ((c7_key_buffer_zeroed.1 iv0 [] (some zeroKey) none (some "boom")).2
      zeroKey (by decide) (by decide))
    rw [h]
    decide
  · have h := ((c7_key_buffer_zeroed.1 iv0 [] (some "invalid-key") none none).2
      "invalid-key" (by decide) (by decide))
    rw [h]
    decide
  · have h := ((c7_key_buffer_zeroed.2 sampleHiEnvelope (some zeroKey) none none).2
      zeroKey (by decide) (by decide))
    rw [h]
    decide



/-- The error kinds `EncryptErrorUnion` declares. -/
def ENCRYPT_ERROR_TYPES : List String :=
  ["PLAINTEXT_TOO_LARGE", "INVALID_KEY_LENGTH", "MISSING_ENCRYPTION_KEY", "ENCRYPTION_FAILED"]

/-- The error kinds `DecryptErrorUnion` declares. -/
def DECRYPT_ERROR_TYPES : List String :=
  ["INVALID_KEY_LENGTH", "MISSING_ENCRYPTION_KEY", "INVALID_IV_LENGTH",
   "INVALID_AUTH_TAG_LENGTH", "INVALID_BASE64_FORMAT", "DECRYPTION_FAILED"]

/-- The error kinds `EncryptJsonErrorUnion` declares. -/
def ENCRYPT_JSON_ERROR_TYPES : List String :=
  ENCRYPT_ERROR_TYPES ++ ["JSON_SERIALIZATION_FAILED"]

/-- The error kinds `DecryptJsonErrorUnion` declares. -/
def DECRYPT_JSON_ERROR_TYPES : List String :=
  DECRYPT_ERROR_TYPES ++ ["JSON_PARSE_FAILED"]

theorem encryptTraced_error_types (ivRand pt : List Nat) (key env fault : Option String)
    (e : CryptoError) (h : (encryptTraced ivRand pt key env fault).result = .error e) :
    e.ctype ∈ ENCRYPT_ERROR_TYPES := by
  unfold encryptTraced at h
  dsimp only at h
  split at h
  · cases h
    simp only [CryptoError.ctype]; decide
  · cases hk : resolveKeyArg key env with
    | error kerr =>
      rw [hk] at h
      dsimp only at h
      cases h
      rw [resolveKeyArg_error_shape _ _ _ hk]
      simp only [CryptoError.ctype]; decide
    | ok ek =>
      rw [hk] at h
      dsimp only at h
      split at h
      · cases h
        simp only [CryptoError.ctype]; decide
      · split at h
        · cases h
          simp only [CryptoError.ctype]; decide
        · cases h

theorem decryptTraced_error_types (ed : EncryptedData) (key env fault : Option String)
    (e : CryptoError) (h : (decryptTraced ed key env fault).result = .error e) :
    e.ctype ∈ DECRYPT_ERROR_TYPES := by
  unfold decryptTraced at h
  cases hval : validateEncryptedData ed with
  | error verr =>
    rw [hval] at h
    dsimp only at h
    cases h
    rcases validateEncryptedData_error_shape ed e hval with hsh | hsh <;> subst hsh <;> (simp only [CryptoError.ctype]; decide)
  | ok u =>
    rw [hval] at h
    cases hk : resolveKeyArg key env with
    | error kerr =>
      rw [hk] at h
      dsimp only at h
      cases h
      rw [resolveKeyArg_error_shape _ _ _ hk]
      simp only [CryptoError.ctype]; decide
    | ok ek =>
      rw [hk] at h
      dsimp only at h
      split at h
      · cases h
        simp only [CryptoError.ctype]; decide
      · split at h
        · cases h
          simp only [CryptoError.ctype]; decide
        · split at h
          · cases h
          · cases h
            simp only [CryptoError.ctype]; decide

/-- C10 counterexample: the claim says every public operation (explicitly
including `encryptJson`, whose input type is `unknown`) returns an explicit
Result for every input and never raises an exception to the caller — but
`encryptJson(undefined)` refutes it on the real code: `JSON.stringify
(undefined)` returns `undefined` without throwing, so the catch at
crypto.ts:384 is not entered, and `encrypt(undefined)` then evaluates
`Buffer.byteLength(undefined, "utf8")` (crypto.ts:179) outside every `try`
block, raising an uncaught `TypeError` to the caller; no Result value is
returned.  The same happens for functions and symbols. -/
theorem c10_counterexample :
    jsonStringify JsValue.undef = .ok none ∧
    encryptJson iv0 JsValue.undef (some zeroKey) none = .thrown TYPE_ERROR_MSG ∧
    encryptJson iv0 JsValue.func (some zeroKey) none = .thrown TYPE_ERROR_MSG ∧
    encryptJson iv0 JsValue.symbol (some zeroKey) none = .thrown TYPE_ERROR_MSG :=
  ⟨rfl, rfl, rfl, rfl⟩

/-- C10 (amended): `encrypt`, `decrypt` and `decryptJson` are total over
their input types, returning explicit success-or-error Results (the
`catch` blocks are modelled so that even an injected throw of the
underlying cipher surfaces as an error value), and every error they return
carries a discriminant from the operation's declared union.  `encryptJson`
does the same for every input on which `JSON.stringify` returns a string
or throws — but on the inputs where `JSON.stringify` returns `undefined`
(`undefined`, functions, symbols), and exactly on those, the `TypeError`
from `Buffer.byteLength(undefined)` escapes uncaught to the caller and no
Result is produced. -/
theorem c10_results_and_taxonomy :
    (∀ (ivRand pt : List Nat) (key env fault : Option String) (e : CryptoError),
      (encryptTraced ivRand pt key env fault).result = .error e →
      e.ctype ∈ ENCRYPT_ERROR_TYPES) ∧
    (∀ (ed : EncryptedData) (key env fault : Option String) (e : CryptoError),
      (decryptTraced ed key env fault).result = .error e →
      e.ctype ∈ DECRYPT_ERROR_TYPES) ∧
    (∀ (ivRand : List Nat) (v : JsValue) (key env : Option String) (e : CryptoError),
      encryptJson ivRand v key env = .result (.error e) →
      e.ctype ∈ ENCRYPT_JSON_ERROR_TYPES) ∧
    (∀ (ivRand : List Nat) (v : JsValue) (key env : Option String) (m : String),
      encryptJson ivRand v key env = .thrown m →
      jsonStringify v = .ok none ∧ m = TYPE_ERROR_MSG) ∧
    (∀ (ivRand : List Nat) (v : JsValue) (key env : Option String),
      jsonStringify v = .ok none →
      encryptJson ivRand v key env = .thrown TYPE_ERROR_MSG) ∧
    (∀ (ed : EncryptedData) (key env : Option String) (e : CryptoError),
      decryptJson ed key env = .error e → e.ctype ∈ DECRYPT_JSON_ERROR_TYPES) := by
  refine ⟨encryptTraced_error_types, decryptTraced_error_types, ?_, ?_, ?_, ?_⟩
  · intro ivRand v key env e h
    unfold encryptJson at h
    cases hs : jsonStringify v with
    | error cause =>
      rw [hs] at h
      cases h
      simp only [CryptoError.ctype]; decide
    | ok jsonString? =>
      rw [hs] at h
      cases jsonString? with
      | none => cases h
      | some jsonString =>
        dsimp only at h
        injection h with h
        have := encryptTraced_error_types ivRand (strToCps jsonString) key env none e h
        unfold ENCRYPT_JSON_ERROR_TYPES
        exact List.mem_append_left _ this
  · intro ivRand v key env m h
    unfold encryptJson at h
    cases hs : jsonStringify v with
    | error cause =>
      rw [hs] at h
      cases h
    | ok jsonString? =>
      rw [hs] at h
      cases jsonString? with
      | none =>
        cases h
        exact ⟨rfl, rfl⟩
      | some jsonString => cases h
  · intro ivRand v key env h
    unfold encryptJson
    rw [h]
  · intro ed key env e h
    unfold decryptJson at h
    cases hd : decrypt ed key env with
    | error derr =>
      rw [hd] at h
      cases h
      have := decryptTraced_error_types ed key env none e hd
      unfold DECRYPT_JSON_ERROR_TYPES
      exact List.mem_append_left _ this
    | ok plaintext =>
      rw [hd] at h
      dsimp only at h
      split at h
      · cases h
      · cases h
        simp only [CryptoError.ctype]; decide

/-- C10 witness: representative errors of each operation fall inside the
declared unions, and the undefined input is exactly a throwing one. -/
theorem c10_results_and_taxonomy_witness :
    CryptoError.missingEncryptionKey.ctype ∈ ENCRYPT_ERROR_TYPES ∧
    (CryptoError.invalidIvLength 12 8).ctype ∈ DECRYPT_ERROR_TYPES ∧
    (CryptoError.jsonSerializationFailed "Do not know how to serialize a BigInt").ctype ∈
      ENCRYPT_JSON_ERROR_TYPES ∧
    encryptJson iv0 JsValue.undef none none = .thrown TYPE_ERROR_MSG ∧
    (CryptoError.jsonParseFailed "Unexpected token n in JSON").ctype ∈
      DECRYPT_JSON_ERROR_TYPES := by
  refine ⟨?_, ?_, ?_, ?_, ?_⟩
  · exact c10_results_and_taxonomy.1 iv0 [] none none none .missingEncryptionKey (by decide)
  · exact c10_results_and_taxonomy.2.1
      { ciphertext := "", iv := base64Encode (List.replicate 8 0),
        tag := base64Encode (List.replicate 16 0) } none none none
      (.invalidIvLength 12 8) (by decide)
  · exact c10_results_and_taxonomy.2.2.1 iv0 (.bigint 1) (some zeroKey) none
      (.jsonSerializationFailed "Do not know how to serialize a BigInt") (by decide)
  · exact c10_results_and_taxonomy.2.2.2.2.1 iv0 JsValue.undef none none rfl
  · exact c10_results_and_taxonomy.2.2.2.2.2 sampleNopeEnvelope (some zeroKey) none
      (.jsonParseFailed "Unexpected token n in JSON") rfl


/-- C9: `encryptJson` wraps a serialization failure as
`JsonSerializationFailed` carrying the cause and otherwise behaves exactly
as `encrypt` applied to the serialized text; `decryptJson` propagates every
`decrypt` error unchanged, parses successfully decrypted text, and wraps a
parse failure as `JsonParseFailed` carrying the cause — a kind outside the
whole decrypt error union. -/
theorem c9_json_adapter :
    (∀ (ivRand : List Nat) (v : JsValue) (key env : Option String) (cause : String),
       jsonStringify v = .error cause →
       encryptJson ivRand v key env = .result (.error (.jsonSerializationFailed cause))) ∧
    (∀ (ivRand : List Nat) (v : JsValue) (key env : Option String) (s : String),
       jsonStringify v = .ok (some s) →
       encryptJson ivRand v key env = .result (encrypt ivRand (strToCps s) key env)) ∧
    (∀ (ed : EncryptedData) (key env : Option String) (e : CryptoError),
       decrypt ed key env = .error e → decryptJson ed key env = .error e) ∧
    (∀ (ed : EncryptedData) (key env : Option String) (cps : List Nat) (cause : String),
       decrypt ed key env = .ok cps → jsonParse (cpsToStr cps) = .error cause →
       decryptJson ed key env = .error (.jsonParseFailed cause)) ∧
    (∀ (ed : EncryptedData) (key env : Option String) (cps : List Nat) (v : JsValue),
       decrypt ed key env = .ok cps → jsonParse (cpsToStr cps) = .ok v →
       decryptJson ed key env = .ok v) ∧
    (∀ cause : String, (CryptoError.jsonParseFailed cause).ctype = "JSON_PARSE_FAILED") ∧
    (DECRYPT_ERROR_TYPES.contains "JSON_PARSE_FAILED") = false := by
  refine ⟨?_, ?_, ?_, ?_, ?_, ?_, ?_⟩
  · intro ivRand v key env cause h
    unfold encryptJson
    rw [h]
  · intro ivRand v key env str h
    unfold encryptJson
    rw [h]
  · intro ed key env e h
    unfold decryptJson
    rw [h]
  · intro ed key env cps cause h1 h2
    unfold decryptJson
    rw [h1]
    dsimp only
    rw [h2]
  · intro ed key env cps v h1 h2
    unfold decryptJson
    rw [h1]
    dsimp only
    rw [h2]
  · intro cause
    rfl
  · decide

/-- C9 witness: a BigInt value fails serialization with the exact wrapped
cause; the JSON tree `{a: 1, b: ["x", "y"]}` delegates to `encrypt` of its
serialization; decrypting the `"nope"` envelope succeeds at the crypto
layer and fails JSON parsing, yielding `JsonParseFailed` with the parser's
cause. -/
theorem c9_json_adapter_witness :
    encryptJson iv0 (JsValue.bigint 7) (some zeroKey) none =
        .result (.error (.jsonSerializationFailed "Do not know how to serialize a BigInt")) ∧
    encryptJson iv0 (JsValue.obj [("a", .num 1), ("b", .arr [.str "x", .str "y"])])
        (some zeroKey) none =
      .result (encrypt iv0 (strToCps "\x7b\"a\":1,\"b\":[\"x\",\"y\"]\x7d") (some zeroKey) none) ∧
    decryptJson sampleNopeEnvelope (some zeroKey) none =
        .error (.jsonParseFailed "Unexpected token n in JSON") :=
  ⟨c9_json_adapter.1 iv0 (JsValue.bigint 7) (some zeroKey) none
      "Do not know how to serialize a BigInt" rfl,
   c9_json_adapter.2.1 iv0 (JsValue.obj [("a", .num 1), ("b", .arr [.str "x", .str "y"])])
      (some zeroKey) none "\x7b\"a\":1,\"b\":[\"x\",\"y\"]\x7d" rfl,
   c9_json_adapter.2.2.2.1 sampleNopeEnvelope (some zeroKey) none (strToCps "nope")
      "Unexpected token n in JSON" rfl rfl⟩



/-- C1: for every plaintext (list of Unicode code points) whose UTF-8 byte
length is at most 65536, every key base64-decoding to exactly 32 bytes, and
every 12-byte nonce draw, `encrypt` succeeds with some envelope and
`decrypt` of that envelope under the same key returns exactly the original
plaintext (the empty string and multi-byte text included — see the
witness). -/
theorem c1_roundtrip :
    ∀ (pt ivRand : List Nat) (k : String) (env : Option String),
      validCps pt → utf8ByteLength pt ≤ 65536 →
      (base64Decode k).length = 32 →
      ivRand.length = 12 → allBytes ivRand →
      ∃ e, encrypt ivRand pt (some k) env = .ok e ∧ decrypt e (some k) env = .ok pt := by
  intro pt ivRand k env hpt hsz hklen hivlen hivb
  have hk : k ≠ "" := by
    intro h
    subst h
    revert hklen
    decide
  have hkey := resolveKeyArg_some k env hk
  have henc := encrypt_ok ivRand pt (some k) env k hsz hkey hklen
  refine ⟨_, henc, ?_⟩
  have hct_bytes : allBytes (xorKeystream (base64Decode k) ivRand (utf8Encode pt)) :=
    xorKS_bytes (base64Decode k) ivRand 0 (utf8Encode pt) (utf8Encode_bytes pt hpt)
  have htag_bytes := computeTag_bytes (base64Decode k) ivRand
    (xorKeystream (base64Decode k) ivRand (utf8Encode pt))
  have hiv_dec := base64_decode_encode ivRand hivb
  have hct_dec := base64_decode_encode _ hct_bytes
  have htag_dec := base64_decode_encode _ htag_bytes
  have hval : validateEncryptedData
      { ciphertext := base64Encode (xorKeystream (base64Decode k) ivRand (utf8Encode pt))
        iv := base64Encode ivRand
        tag := base64Encode (computeTag (base64Decode k) ivRand
          (xorKeystream (base64Decode k) ivRand (utf8Encode pt))) } = .ok () := by
    rw [validateEncryptedData_ok_iff]
    constructor
    · dsimp only
      rw [hiv_dec, hivlen]
      rfl
    · dsimp only
      rw [htag_dec, computeTag_length]
      rfl
  have hrun := decrypt_run _ (some k) env k hval hkey hklen
  rw [hrun]
  dsimp only
  rw [hiv_dec, hct_dec, htag_dec, if_pos rfl]
  have hinv : xorKeystream (base64Decode k) ivRand
      (xorKeystream (base64Decode k) ivRand (utf8Encode pt)) = utf8Encode pt :=
    xorKS_involution (base64Decode k) ivRand 0 (utf8Encode pt)
  rw [hinv, utf8_decode_encode pt hpt]

/-- C1 witness: the empty string, `"Hello, World!"`, and a string mixing
multi-byte scripts and emoji all round-trip exactly under the all-zero
32-byte key. -/
theorem c1_roundtrip_witness :
    (∃ e, encrypt iv0 [] (some zeroKey) none = .ok e ∧
      decrypt e (some zeroKey) none = .ok []) ∧
    (∃ e, encrypt iv0 (strToCps "Hello, World!") (some zeroKey) none = .ok e ∧
      decrypt e (some zeroKey) none = .ok (strToCps "Hello, World!")) ∧
    (∃ e, encrypt iv0 (strToCps "Hello 🔐 世界 مرحبا Ñoño 🎉🚀") (some zeroKey) none = .ok e ∧
      decrypt e (some zeroKey) none = .ok (strToCps "Hello 🔐 世界 مرحبا Ñoño 🎉🚀")) :=
  ⟨c1_roundtrip [] iv0 zeroKey none (by decide) (by decide) (by decide) (by decide) (by decide),
   c1_roundtrip (strToCps "Hello, World!") iv0 zeroKey none
     (by decide) (by decide) (by decide) (by decide) (by decide),
   c1_roundtrip (strToCps "Hello 🔐 世界 مرحبا Ñoño 🎉🚀") iv0 zeroKey none
     (by decide) (by decide) (by decide) (by decide) (by decide)⟩



/-- Flip bit `j` of byte `i` of a buffer (length-preserving mutation). -/
def flipBit (bs : List Nat) (i j : Nat) : List Nat := bs.set i (bs.getD i 0 ^^^ 2 ^ j)

theorem xor_pow_ne (b j : Nat) : b ^^^ 2 ^ j ≠ b := by
  intro h
  have h2 : b ^^^ (b ^^^ 2 ^ j) = b ^^^ b := by rw [h]
  rw [← Nat.xor_assoc, Nat.xor_self, Nat.zero_xor] at h2
  have hp : 0 < 2 ^ j := Nat.pow_pos (show 0 < 2 by norm_num)
  omega

theorem flipBit_length (bs : List Nat) (i j : Nat) : (flipBit bs i j).length = bs.length := by
  simp [flipBit]

theorem flipBit_bytes (bs : List Nat) (i j : Nat) (h : allBytes bs) (hj : j < 8) :
    allBytes (flipBit bs i j) := by
  intro b hb
  have hpow : 2 ^ j < 256 := by
    have : 2 ^ j ≤ 2 ^ 7 := Nat.pow_le_pow_right (by norm_num) (by omega)
    omega
  rcases List.mem_or_eq_of_mem_set hb with hmem | heq
  · exact h b hmem
  · subst heq
    have hget : bs.getD i 0 < 256 := by
      by_cases hi : i < bs.length
      · rw [List.getD_eq_getElem bs 0 hi]
        exact h _ (List.getElem_mem hi)
      · rw [List.getD_eq_default bs 0 (by omega)]
        norm_num
    calc bs.getD i 0 ^^^ 2 ^ j < 2 ^ 8 := Nat.xor_lt_two_pow (by omega) (by omega)
    _ = 256 := by norm_num

theorem take_cons_drop (l : List Nat) (i : Nat) (hi : i < l.length) :
    l.take i ++ l.getD i 0 :: l.drop (i + 1) = l := by
  induction l generalizing i with
  | nil => simp at hi
  | cons a t ih =>
    cases i with
    | zero => simp [List.getD]
    | succ m =>
      simp only [List.length_cons] at hi
      simp only [List.take_succ_cons, List.drop_succ_cons, List.getD_cons_succ, List.cons_append,
        List.cons.injEq, true_and]
      exact ih m (by omega)

theorem flipBit_ne (l : List Nat) (i j : Nat) (hi : i < l.length) : flipBit l i j ≠ l := by
  intro h
  have h1 : (flipBit l i j).getD i 0 = l.getD i 0 ^^^ 2 ^ j := by
    unfold flipBit
    rw [List.getD_eq_getElem _ 0 (by simpa using hi)]
    exact List.getElem_set_self (by simpa using hi)
  have h2 : (flipBit l i j).getD i 0 = l.getD i 0 := by rw [h]
  rw [h1] at h2
  exact xor_pow_ne (l.getD i 0) j h2

/-- Flipping a bit of the ciphertext changes the authentication tag. -/
theorem computeTag_flip_ct (kb iv ct : List Nat) (i j : Nat) (hi : i < ct.length)
    (hct : allBytes ct) (hj : j < 8) :
    computeTag kb iv (flipBit ct i j) ≠ computeTag kb iv ct := by
  have hx : ct.getD i 0 < 256 := by
    rw [List.getD_eq_getElem ct 0 hi]
    exact hct _ (List.getElem_mem hi)
  have hpow : 2 ^ j < 256 := by
    have h7 : 2 ^ j ≤ 2 ^ 7 := Nat.pow_le_pow_right (by norm_num) (by omega)
    omega
  have hflip : flipBit ct i j = ct.take i ++ (ct.getD i 0 ^^^ 2 ^ j) :: ct.drop (i + 1) := by
    unfold flipBit
    exact List.set_eq_take_cons_drop _ hi
  have hself : ct = ct.take i ++ ct.getD i 0 :: ct.drop (i + 1) := (take_cons_drop ct i hi).symm
  intro heq
  unfold computeTag at heq
  refine computeTag_ne (kb ++ iv ++ ct.take i) (ct.drop (i + 1))
    (ct.getD i 0 ^^^ 2 ^ j) (ct.getD i 0)
    (by
      have hxor := Nat.xor_lt_two_pow (show ct.getD i 0 < 2 ^ 8 by omega)
        (show 2 ^ j < 2 ^ 8 by omega)
      omega)
    hx (xor_pow_ne _ _) ?_
  have e1 : (kb ++ iv ++ ct.take i) ++ (ct.getD i 0 ^^^ 2 ^ j) :: ct.drop (i + 1) =
      kb ++ iv ++ flipBit ct i j := by
    rw [hflip]
    simp [List.append_assoc]
  have e2 : (kb ++ iv ++ ct.take i) ++ ct.getD i 0 :: ct.drop (i + 1) = kb ++ iv ++ ct := by
    conv_rhs => rw [hself]
    simp [List.append_assoc]
  rw [e1, e2]
  exact heq

/-- Flipping a bit of the nonce changes the authentication tag. -/
theorem computeTag_flip_iv (kb iv ct : List Nat) (i j : Nat) (hi : i < iv.length)
    (hiv : allBytes iv) (hj : j < 8) :
    computeTag kb (flipBit iv i j) ct ≠ computeTag kb iv ct := by
  have hx : iv.getD i 0 < 256 := by
    rw [List.getD_eq_getElem iv 0 hi]
    exact hiv _ (List.getElem_mem hi)
  have hpow : 2 ^ j < 256 := by
    have h7 : 2 ^ j ≤ 2 ^ 7 := Nat.pow_le_pow_right (by norm_num) (by omega)
    omega
  have hflip : flipBit iv i j = iv.take i ++ (iv.getD i 0 ^^^ 2 ^ j) :: iv.drop (i + 1) := by
    unfold flipBit
    exact List.set_eq_take_cons_drop _ hi
  have hself : iv = iv.take i ++ iv.getD i 0 :: iv.drop (i + 1) := (take_cons_drop iv i hi).symm
  intro heq
  unfold computeTag at heq
  refine computeTag_ne (kb ++ iv.take i) (iv.drop (i + 1) ++ ct)
    (iv.getD i 0 ^^^ 2 ^ j) (iv.getD i 0)
    (by
      have hxor := Nat.xor_lt_two_pow (show iv.getD i 0 < 2 ^ 8 by omega)
        (show 2 ^ j < 2 ^ 8 by omega)
      omega)
    hx (xor_pow_ne _ _) ?_
  have e1 : (kb ++ iv.take i) ++ (iv.getD i 0 ^^^ 2 ^ j) :: (iv.drop (i + 1) ++ ct) =
      kb ++ flipBit iv i j ++ ct := by
    rw [hflip]
    simp [List.append_assoc]
  have e2 : (kb ++ iv.take i) ++ iv.getD i 0 :: (iv.drop (i + 1) ++ ct) = kb ++ iv ++ ct := by
    conv_rhs => rw [hself]
    simp [List.append_assoc]
  rw [e1, e2]
  exact heq



/-- Inversion of a successful `encrypt`: the size and key checks passed and
the envelope is the canonical one. -/
theorem encrypt_ok_inv (ivRand pt : List Nat) (key env : Option String) (e : EncryptedData)
    (h : encrypt ivRand pt key env = .ok e) :
    utf8ByteLength pt ≤ MAX_PLAINTEXT_SIZE ∧
    ∃ ek, resolveKeyArg key env = .ok ek ∧ (base64Decode ek).length = KEY_LENGTH ∧
      e = { ciphertext := base64Encode (xorKeystream (base64Decode ek) ivRand (utf8Encode pt))
            iv := base64Encode ivRand
            tag := base64Encode (computeTag (base64Decode ek) ivRand
              (xorKeystream (base64Decode ek) ivRand (utf8Encode pt))) } := by
  unfold encrypt encryptTraced at h
  dsimp only at h
  split at h
  · cases h
  · rename_i hsz
    refine ⟨by omega, ?_⟩
    cases hk : resolveKeyArg key env with
    | error kerr =>
      rw [hk] at h
      cases h
    | ok ek =>
      rw [hk] at h
      dsimp only at h
      split at h
      · cases h
      · rename_i hlen
        refine ⟨ek, rfl, by omega, ?_⟩
        cases h
        rfl

/-- C2: for every envelope produced by a successful `encrypt` under a
32-byte key (with a well-formed 12-byte nonce draw and a valid plaintext),
flipping any single bit of the decoded ciphertext, decoded iv, or decoded
tag — keeping decoded lengths unchanged — makes `decrypt` under the same
key fail with `DecryptionFailed`; in particular `decrypt` never returns a
success result on such a mutated envelope. -/
theorem c2_tamper_detection :
    ∀ (pt ivRand : List Nat) (k : String) (env : Option String) (e : EncryptedData),
      encrypt ivRand pt (some k) env = .ok e →
      validCps pt → ivRand.length = 12 → allBytes ivRand →
      (base64Decode k).length = 32 →
      ∀ i j : Nat, j < 8 →
        (i < (base64Decode e.ciphertext).length →
          decrypt { e with ciphertext := base64Encode (flipBit (base64Decode e.ciphertext) i j) }
            (some k) env = .error (.decryptionFailed AUTH_FAIL_MSG)) ∧
        (i < (base64Decode e.iv).length →
          decrypt { e with iv := base64Encode (flipBit (base64Decode e.iv) i j) }
            (some k) env = .error (.decryptionFailed AUTH_FAIL_MSG)) ∧
        (i < (base64Decode e.tag).length →
          decrypt { e with tag := base64Encode (flipBit (base64Decode e.tag) i j) }
            (some k) env = .error (.decryptionFailed AUTH_FAIL_MSG)) := by
  intro pt ivRand k env e henc hpt hivlen hivb hklen i j hj
  have hk : k ≠ "" := by
    intro hke
    subst hke
    revert hklen
    decide
  obtain ⟨hsz, ek, hkres, hlen, hE⟩ := encrypt_ok_inv ivRand pt (some k) env e henc
  rw [resolveKeyArg_some k env hk] at hkres
  cases hkres
  subst hE
  have hkey := resolveKeyArg_some k env hk
  have hct_bytes : allBytes (xorKeystream (base64Decode k) ivRand (utf8Encode pt)) :=
    xorKS_bytes (base64Decode k) ivRand 0 (utf8Encode pt) (utf8Encode_bytes pt hpt)
  have htag_bytes := computeTag_bytes (base64Decode k) ivRand
    (xorKeystream (base64Decode k) ivRand (utf8Encode pt))
  have hiv_dec := base64_decode_encode ivRand hivb
  have hct_dec := base64_decode_encode _ hct_bytes
  have htag_dec := base64_decode_encode _ htag_bytes
  refine ⟨?_, ?_, ?_⟩
  · -- ciphertext flip
    intro hi
    dsimp only at hi
    rw [hct_dec] at hi
    have hflip_bytes := flipBit_bytes _ i j hct_bytes hj
    have hflip_dec := base64_decode_encode _ hflip_bytes
    have hval : validateEncryptedData
        { ciphertext := base64Encode (flipBit (base64Decode
            (base64Encode (xorKeystream (base64Decode k) ivRand (utf8Encode pt)))) i j)
          iv := base64Encode ivRand
          tag := base64Encode (computeTag (base64Decode k) ivRand
            (xorKeystream (base64Decode k) ivRand (utf8Encode pt))) } = .ok () := by
      rw [validateEncryptedData_ok_iff]
      constructor
      · dsimp only
        rw [hiv_dec, hivlen]
        rfl
      · dsimp only
        rw [htag_dec, computeTag_length]
        rfl
    have hrun := decrypt_run _ (some k) env k hval hkey hklen
    rw [hrun]
    dsimp only
    rw [hiv_dec, htag_dec, hct_dec, hflip_dec]
    rw [if_neg (computeTag_flip_ct (base64Decode k) ivRand _ i j hi hct_bytes hj)]
  · -- iv flip
    intro hi
    dsimp only at hi
    rw [hiv_dec] at hi
    have hflip_bytes := flipBit_bytes _ i j hivb hj
    have hflip_dec := base64_decode_encode _ hflip_bytes
    have hval : validateEncryptedData
        { ciphertext := base64Encode (xorKeystream (base64Decode k) ivRand (utf8Encode pt))
          iv := base64Encode (flipBit (base64Decode (base64Encode ivRand)) i j)
          tag := base64Encode (computeTag (base64Decode k) ivRand
            (xorKeystream (base64Decode k) ivRand (utf8Encode pt))) } = .ok () := by
      rw [validateEncryptedData_ok_iff]
      constructor
      · dsimp only
        rw [hiv_dec, hflip_dec, flipBit_length, hivlen]
        rfl
      · dsimp only
        rw [htag_dec, computeTag_length]
        rfl
    have hrun := decrypt_run _ (some k) env k hval hkey hklen
    rw [hrun]
    dsimp only
    rw [hiv_dec, htag_dec, hct_dec, hflip_dec]
    rw [if_neg (computeTag_flip_iv (base64Decode k) ivRand _ i j hi hivb hj)]
  · -- tag flip
    intro hi
    dsimp only at hi
    rw [htag_dec] at hi
    have hflip_bytes := flipBit_bytes _ i j htag_bytes hj
    have hflip_dec := base64_decode_encode _ hflip_bytes
    have hval : validateEncryptedData
        { ciphertext := base64Encode (xorKeystream (base64Decode k) ivRand (utf8Encode pt))
          iv := base64Encode ivRand
          tag := base64Encode (flipBit (base64Decode (base64Encode (computeTag (base64Decode k)
            ivRand (xorKeystream (base64Decode k) ivRand (utf8Encode pt))))) i j) } = .ok () := by
      rw [validateEncryptedData_ok_iff]
      constructor
      · dsimp only
        rw [hiv_dec]
        rw [hivlen]
        rfl
      · dsimp only
        rw [htag_dec, hflip_dec, flipBit_length, computeTag_length]
        rfl
    have hrun := decrypt_run _ (some k) env k hval hkey hklen
    rw [hrun]
    dsimp only
    rw [hiv_dec, hct_dec, htag_dec, hflip_dec]
    rw [if_neg (fun hcontra => flipBit_ne _ i j hi (hcontra.symm))]

/-- C2 witness: on the concrete `"Hi"` envelope under the all-zero key,
flipping bit 0 of byte 0 of the decoded ciphertext, iv, or tag each makes
`decrypt` fail with `DecryptionFailed`. -/
theorem c2_tamper_detection_witness :
    decrypt { sampleHiEnvelope with
        ciphertext := base64Encode (flipBit (base64Decode sampleHiEnvelope.ciphertext) 0 0) }
      (some zeroKey) none = .error (.decryptionFailed AUTH_FAIL_MSG) ∧
    decrypt { sampleHiEnvelope with
        iv := base64Encode (flipBit (base64Decode sampleHiEnvelope.iv) 0 0) }
      (some zeroKey) none = .error (.decryptionFailed AUTH_FAIL_MSG) ∧
    decrypt { sampleHiEnvelope with
        tag := base64Encode (flipBit (base64Decode sampleHiEnvelope.tag) 0 0) }
      (some zeroKey) none = .error (.decryptionFailed AUTH_FAIL_MSG) := by
  obtain ⟨h1, h2, h3⟩ := c2_tamper_detection (strToCps "Hi") iv0 zeroKey none sampleHiEnvelope
    (by decide) (by decide) (by decide) (by decide) (by decide) 0 0 (by decide)
  exact ⟨h1 (by decide), h2 (by decide), h3 (by decide)⟩


end Crypto
